import Mathlib

set_option maxRecDepth 40000

/-!
Verification development for the `nz-mvr-explorer` SQL query builder.

The definitions below are a shallow embedding of the Python sources:
  * `src/src/validation.py` — `validate_columns`, `is_numeric`
  * `src/src/filter.py`     — `build_filter_condition`
  * `src/src/query.py`      — `build_query`

Python strings become `String`, `Optional[str]` becomes `Option String`,
the heterogeneous parameter list (str / float / None) becomes `List Param`,
and fallible code returns `Except PyErr`.  Python `float` values are
modelled exactly-rationally (`PyFloat`): the claims under scrutiny only
involve values on which IEEE rounding is the identity.
-/

/-- Result of Python `float(...)`: a finite value (modelled as the exact
rational the literal denotes), an infinity, or NaN. -/
inductive PyFloat where
  | finite (q : ℚ)
  | inf
  | neginf
  | nan
deriving DecidableEq, Repr

/-- One element of the query-parameter list: Python `str`, `float`, or `None`. -/
inductive Param where
  | pstr (s : String)
  | pnum (f : PyFloat)
  | pnone
deriving DecidableEq, Repr

/-- The Python exceptions the embedded code can raise. -/
inductive PyErr where
  | valueError (msg : String)
  | attributeError
deriving DecidableEq, Repr

/-- Characters stripped by Python `str.strip()` (ASCII whitespace). -/
def isPyWs (c : Char) : Bool :=
  c = ' ' || c = '\t' || c = '\n' || c = '\r' || c = '\x0b' || c = '\x0c'

/-- Python `str.strip()`: remove leading and trailing whitespace. -/
def pyStrip (s : String) : String :=
  (((s.data.dropWhile isPyWs).reverse.dropWhile isPyWs).reverse).asString

/-- Python f-string interpolation of an `Optional[str]`: `None` prints as `"None"`. -/
def pyStr : Option String → String
  | none => "None"
  | some s => s

/-- Python truthiness of an `Optional[str]`: `None` and `""` are falsy. -/
def pyTruthy : Option String → Bool
  | none => false
  | some s => s ≠ ""

/-- An `Optional[str]` appended to the parameter list as-is. -/
def paramOfVal : Option String → Param
  | none => Param.pnone
  | some s => Param.pstr s

/-- Split a character list on a separator character; like Python
`str.split(sep)` for a one-character `sep` (adjacent separators produce
empty segments, the empty input gives one empty segment). -/
def splitOnChar (sep : Char) : List Char → List (List Char)
  | [] => [[]]
  | c :: rest =>
    match splitOnChar sep rest with
    | h :: t => if c = sep then [] :: h :: t else (c :: h) :: t
    | [] => if c = sep then [[], []] else [[c]]

/-- Python `s.split(sep)` for a single-character separator. -/
def pySplit (s : String) (sep : Char) : List String :=
  (splitOnChar sep s.data).map List.asString

/-- Consume a run of decimal digits, Python-style: underscores are allowed
only between two digits (PEP 515).  Returns (value, digit count, rest). -/
def dgroupAux : List Char → Nat → Nat → Nat × Nat × List Char
  | [], acc, k => (acc, k, [])
  | [c], acc, k =>
    if c.isDigit then (acc * 10 + (c.toNat - 48), k + 1, [])
    else (acc, k, [c])
  | c :: d :: rest, acc, k =>
    if c.isDigit then dgroupAux (d :: rest) (acc * 10 + (c.toNat - 48)) (k + 1)
    else if c = '_' then
      if d.isDigit then dgroupAux rest (acc * 10 + (d.toNat - 48)) (k + 1)
      else (acc, k, c :: d :: rest)
    else (acc, k, c :: d :: rest)

/-- Parse a digit group that must start with a digit. -/
def parseDGroup (l : List Char) : Option (Nat × Nat × List Char) :=
  match l with
  | c :: _ => if c.isDigit then some (dgroupAux l 0 0) else none
  | [] => none

/-- Parse an optional exponent suffix (`e`/`E`, optional sign, digit group)
and scale `q` accordingly; anything else is left over. -/
def parseExpPart (q : ℚ) (l : List Char) : Option (ℚ × List Char) :=
  match l with
  | [] => some (q, [])
  | c :: rest =>
    if c = 'e' ∨ c = 'E' then
      match rest with
      | '+' :: r =>
        match parseDGroup r with
        | some (v, _, rest') => some (q * (10 : ℚ) ^ (v : ℤ), rest')
        | none => none
      | '-' :: r =>
        match parseDGroup r with
        | some (v, _, rest') => some (q * (10 : ℚ) ^ (-(v : ℤ)), rest')
        | none => none
      | r =>
        match parseDGroup r with
        | some (v, _, rest') => some (q * (10 : ℚ) ^ (v : ℤ), rest')
        | none => none
    else some (q, l)

/-- Parse the unsigned decimal body of a Python float literal:
`intpart [. [fracpart]] [exp]` or `. fracpart [exp]`. -/
def parseDecimal (l : List Char) : Option (ℚ × List Char) :=
  match parseDGroup l with
  | some (ip, _, rest) =>
    match rest with
    | '.' :: rest' =>
      match parseDGroup rest' with
      | some (fp, fd, rest'') => parseExpPart ((ip : ℚ) + (fp : ℚ) / (10 : ℚ) ^ fd) rest''
      | none => parseExpPart ((ip : ℚ)) rest'
    | _ => parseExpPart ((ip : ℚ)) rest
  | none =>
    match l with
    | '.' :: rest' =>
      match parseDGroup rest' with
      | some (fp, fd, rest'') => parseExpPart ((fp : ℚ) / (10 : ℚ) ^ fd) rest''
      | none => none
    | _ => none

/-- Python `float(s)` on a string: strip whitespace, optional sign, then a
decimal literal or (case-insensitively) `inf`, `infinity`, `nan`.
Returns `none` where Python raises `ValueError`. -/
def pyFloatOfString (s : String) : Option PyFloat :=
  let l := (pyStrip s).data
  let sl : Bool × List Char :=
    match l with
    | '+' :: r => (false, r)
    | '-' :: r => (true, r)
    | r => (false, r)
  let low := sl.2.map Char.toLower
  if low = "inf".data ∨ low = "infinity".data then
    some (if sl.1 then PyFloat.neginf else PyFloat.inf)
  else if low = "nan".data then some PyFloat.nan
  else
    match parseDecimal sl.2 with
    | some (q, []) => some (PyFloat.finite (if sl.1 then -q else q))
    | _ => none

/-- Python `float(value)` on an `Optional[str]`: `None` raises `TypeError`
(modelled as `none`). -/
def pyFloatOfVal : Option String → Option PyFloat
  | none => none
  | some s => pyFloatOfString s

/-- Embedding of `validate_columns` (src/src/validation.py, lines 4–6):
`all(col in allowed for col in cols)`. -/
def validate_columns (cols allowed : List String) : Bool :=
  cols.all fun col => allowed.contains col

/-- Embedding of `is_numeric` (src/src/validation.py, lines 9–15):
`float(value)` succeeds (ValueError/TypeError caught → false). -/
def is_numeric (value : Option String) : Bool :=
  (pyFloatOfVal value).isSome

/-- The `for v in values: params.append(v); placeholders.append(f"${len(params)}")`
loop of the "is one of" branch (src/src/filter.py, lines 35–38). -/
def inParamsLoop : List String → List Param → List String → List Param × List String
  | [], params, placeholders => (params, placeholders)
  | v :: rest, params, placeholders =>
    inParamsLoop rest (params ++ [Param.pstr v])
      (placeholders ++ ["$" ++ toString (params.length + 1)])

/-- Embedding of `build_filter_condition` (src/src/filter.py, lines 6–49).
Returns the optional condition fragment together with the updated parameter
list (Python mutates `params` in place); `Except.error` models an uncaught
exception (`AttributeError` from `None.split` in the "is one of" branch). -/
def build_filter_condition (col op : String) (val : Option String) (params : List Param) :
    Except PyErr (Option String × List Param) :=
  if op = "is null" then
    Except.ok (some ("\"" ++ col ++ "\" IS NULL"), params)
  else if op = "not null" then
    Except.ok (some ("\"" ++ col ++ "\" IS NOT NULL"), params)
  else if op = "contains" then
    let params' := params ++ [Param.pstr ("%" ++ pyStr val ++ "%")]
    Except.ok (some ("CAST(\"" ++ col ++ "\" AS VARCHAR) ILIKE $" ++ toString params'.length),
      params')
  else if op = "equals" then
    let params' := params ++ [paramOfVal val]
    Except.ok (some ("CAST(\"" ++ col ++ "\" AS VARCHAR) = $" ++ toString params'.length),
      params')
  else if op = "is one of" then
    match val with
    | none => Except.error PyErr.attributeError
    | some v =>
      let values := (pySplit v '\n').foldl
        (fun vs line => vs ++ ((pySplit line ',').filter fun w => pyStrip w ≠ "").map pyStrip) []
      if values = [] then Except.ok (none, params)
      else
        let pp := inParamsLoop values params []
        Except.ok (some ("CAST(\"" ++ col ++ "\" AS VARCHAR) IN ("
          ++ String.intercalate ", " pp.2 ++ ")"), pp.1)
  else if op = ">" ∨ op = "<" ∨ op = ">=" ∨ op = "<=" then
    if is_numeric val then
      let params' := params ++ [Param.pnum ((pyFloatOfVal val).getD PyFloat.nan)]
      Except.ok (some ("TRY_CAST(\"" ++ col ++ "\" AS DOUBLE) " ++ op ++ " $"
        ++ toString params'.length), params')
    else
      let params' := params ++ [paramOfVal val]
      Except.ok (some ("CAST(\"" ++ col ++ "\" AS VARCHAR) " ++ op ++ " $"
        ++ toString params'.length), params')
  else
    Except.ok (none, params)

/-- Modelled from the spec: `DB_TABLE` is imported from `src/constants.py`,
which is not among the sources; the spec (§6) says it is a fixed, trusted
table-name constant that "is inlined directly" and never parameterised. -/
def DB_TABLE : String := "mvr"

/-- The `for col, op, val in filters` loop of `build_query`
(src/src/query.py, lines 44–48): compile each filter, keep truthy fragments. -/
def condLoop : List (String × String × Option String) → List String → List Param →
    Except PyErr (List String × List Param)
  | [], conditions, params => Except.ok (conditions, params)
  | (col, op, val) :: rest, conditions, params =>
    match build_filter_condition col op val params with
    | Except.error e => Except.error e
    | Except.ok (condition, params') =>
      match condition with
      | some c =>
        if c = "" then condLoop rest conditions params'
        else condLoop rest (conditions ++ [c]) params'
      | none => condLoop rest conditions params'

/-- Embedding of `build_query` (src/src/query.py, lines 7–95):
validate referenced columns, compile filters into a WHERE clause, then emit
the grouped or raw SQL template with the collected parameter list. -/
def build_query (query_mode : String) (group_by_col : Option String)
    (count_col : Option String) (selected_columns : List String)
    (sort_col : Option String) (sort_order : Option String)
    (filters : List (String × String × Option String)) (limit : Int)
    (available_columns : List String) : Except PyErr (String × List Param) :=
  let columns_to_validate :=
    (if pyTruthy group_by_col then [pyStr group_by_col] else [])
    ++ (if pyTruthy count_col ∧ count_col ≠ some "*" then [pyStr count_col] else [])
    ++ selected_columns
    ++ (if pyTruthy sort_col ∧ sort_col ≠ some "(no sorting)" then [pyStr sort_col] else [])
    ++ filters.map fun f => f.1
  if ¬ validate_columns columns_to_validate available_columns then
    Except.error (PyErr.valueError "Invalid column name detected")
  else
    match condLoop filters [] [] with
    | Except.error e => Except.error e
    | Except.ok (conditions, params) =>
      let where_clause :=
        if conditions ≠ [] then "WHERE " ++ String.intercalate " AND " conditions else ""
      if query_mode = "Grouped (summary)" then
        let count_expr := if count_col = some "*" then "COUNT(*)" else "COUNT(*)"
        let gb := pyStr group_by_col
        Except.ok (
          "\n            SELECT \n                COALESCE(CAST(\"" ++ gb
            ++ "\" AS VARCHAR), '(null)') as \"" ++ gb ++ "\",\n                "
            ++ count_expr ++ " as count \n            FROM " ++ DB_TABLE
            ++ "\n            " ++ where_clause ++ "\n            GROUP BY \"" ++ gb
            ++ "\"\n            ORDER BY count DESC\n            LIMIT " ++ toString limit
            ++ "\n        ", params)
      else
        if selected_columns = [] then
          Except.error (PyErr.valueError "No columns selected for raw mode")
        else
          let cols := String.intercalate ", " (selected_columns.map fun c => "\"" ++ c ++ "\"")
          let order_clause :=
            if pyTruthy sort_col ∧ sort_col ≠ some "(no sorting)" then
              "ORDER BY \"" ++ pyStr sort_col ++ "\" "
                ++ (if sort_order = some "Ascending" then "ASC" else "DESC")
            else ""
          Except.ok (
            "\n            SELECT " ++ cols ++ "\n            FROM " ++ DB_TABLE
              ++ "\n            " ++ where_clause ++ "\n            " ++ order_clause
              ++ "\n            LIMIT " ++ toString limit ++ "\n        ", params)

/-- Substring test: `pat` occurs contiguously inside `s`. -/
def strContains (s pat : String) : Bool := decide (pat.data <:+: s.data)

/-- The values accumulated by the "is one of" split-and-strip loop of
`build_filter_condition` (src/src/filter.py, lines 26–28). -/
def isOneOfValues (v : String) : List String :=
  (pySplit v '\n').foldl
    (fun vs line => vs ++ ((pySplit line ',').filter fun w => pyStrip w ≠ "").map pyStrip) []

/-- The parameter values one filter appends, read off the operator branches
of `build_filter_condition`; used to state parameter/placeholder alignment. -/
def appendedValues (op : String) (val : Option String) : List Param :=
  if op = "is null" then []
  else if op = "not null" then []
  else if op = "contains" then [Param.pstr ("%" ++ pyStr val ++ "%")]
  else if op = "equals" then [paramOfVal val]
  else if op = "is one of" then
    match val with
    | none => []
    | some v => (isOneOfValues v).map Param.pstr
  else if op = ">" ∨ op = "<" ∨ op = ">=" ∨ op = "<=" then
    if is_numeric val then [Param.pnum ((pyFloatOfVal val).getD PyFloat.nan)]
    else [paramOfVal val]
  else []

/-- Shape of a filter value as seen by the generated SQL text: the compiled
fragment can depend on the value only through numeric-parse status (for the
comparison operators) and through presence plus parsed-segment count (for
"is one of"). -/
def sameShape (op : String) (v1 v2 : Option String) : Prop :=
  (op = "is one of" → ((v1 = none ↔ v2 = none) ∧
    ∀ s1 s2, v1 = some s1 → v2 = some s2 →
      (isOneOfValues s1).length = (isOneOfValues s2).length)) ∧
  ((op = ">" ∨ op = "<" ∨ op = ">=" ∨ op = "<=") → is_numeric v1 = is_numeric v2)

/-- Placeholder-scanner state: completed `$`-digit-run tokens, plus the run
currently being read (present exactly when the scanner has passed a `$`). -/
structure PhSt where
  toks : List (List Char)
  cur : Option (List Char)
deriving DecidableEq, Repr

/-- One step of the placeholder scanner. -/
def phStep (s : PhSt) (c : Char) : PhSt :=
  match s.cur with
  | some run =>
    if c.isDigit then { s with cur := some (run ++ [c]) }
    else
      let toks := if run = [] then s.toks else s.toks ++ [run]
      if c = '$' then { toks := toks, cur := some [] } else { toks := toks, cur := none }
  | none => if c = '$' then { s with cur := some [] } else s

/-- Flush a pending digit run at end of input. -/
def phClose (s : PhSt) : PhSt :=
  match s.cur with
  | some run =>
    if run = [] then { toks := s.toks, cur := none } else { toks := s.toks ++ [run], cur := none }
  | none => s

/-- All placeholder tokens of a character sequence: each maximal digit run
immediately following a `$`, in order of occurrence. -/
def phTokens (l : List Char) : List (List Char) :=
  (phClose (l.foldl phStep ⟨[], none⟩)).toks

/-- The decimal-digit characters of `k`, as printed by `toString`. -/
def reprD (k : Nat) : List Char := (Nat.repr k).data

/-- Quoted-identifier scanner state. -/
structure QiSt where
  ids : List String
  cur : Option (List Char)
deriving Repr

/-- One step of the quoted-identifier scanner. -/
def qiStep (s : QiSt) (c : Char) : QiSt :=
  match s.cur with
  | none => if c = '"' then { s with cur := some [] } else s
  | some run =>
    if c = '"' then { ids := s.ids ++ [run.asString], cur := none }
    else { s with cur := some (run ++ [c]) }

/-- All double-quoted identifier tokens of a character sequence, in order. -/
def quotedIdents (l : List Char) : List String :=
  (l.foldl qiStep ⟨[], none⟩).ids

/-- The `columns_to_validate` list assembled by `build_query`
(src/src/query.py, lines 25–39), as a standalone function. -/
def bqColumnsToValidate (gb cc : Option String) (sc : List String) (sortc : Option String)
    (fs : List (String × String × Option String)) : List String :=
  (if pyTruthy gb then [pyStr gb] else [])
  ++ (if pyTruthy cc ∧ cc ≠ some "*" then [pyStr cc] else [])
  ++ sc
  ++ (if pyTruthy sortc ∧ sortc ≠ some "(no sorting)" then [pyStr sortc] else [])
  ++ fs.map fun f => f.1

/-- The WHERE clause `build_query` builds from the collected fragments. -/
def whereClause (conditions : List String) : String :=
  if conditions ≠ [] then "WHERE " ++ String.intercalate " AND " conditions else ""

/-- The grouped-mode SQL template of `build_query`, with the WHERE clause
abstracted. -/
def groupedTemplate (gb : Option String) (wc : String) (lim : Int) : String :=
  "\n            SELECT \n                COALESCE(CAST(\"" ++ pyStr gb
    ++ "\" AS VARCHAR), '(null)') as \"" ++ pyStr gb ++ "\",\n                "
    ++ "COUNT(*)" ++ " as count \n            FROM " ++ DB_TABLE
    ++ "\n            " ++ wc ++ "\n            GROUP BY \"" ++ pyStr gb
    ++ "\"\n            ORDER BY count DESC\n            LIMIT " ++ toString lim
    ++ "\n        "

/-- The raw-mode SQL template of `build_query`, with the WHERE clause
abstracted. -/
def rawTemplate (sc : List String) (sortc sord : Option String) (wc : String)
    (lim : Int) : String :=
  "\n            SELECT " ++ String.intercalate ", " (sc.map fun c => "\"" ++ c ++ "\"")
    ++ "\n            FROM " ++ DB_TABLE ++ "\n            " ++ wc ++ "\n            "
    ++ (if pyTruthy sortc ∧ sortc ≠ some "(no sorting)" then
          "ORDER BY \"" ++ pyStr sortc ++ "\" "
            ++ (if sord = some "Ascending" then "ASC" else "DESC")
        else "")
    ++ "\n            LIMIT " ++ toString lim ++ "\n        "

/-- Scan specification for the placeholder scanner: processing `c` from a
clean state appends exactly the placeholder tokens for the indices `ks`
(flushed), ending in a clean state. -/
def FragPh (c : String) (ks : List Nat) : Prop :=
  ∀ t : List (List Char),
    phClose (List.foldl phStep ⟨t, none⟩ c.data) = ⟨t ++ ks.map reprD, none⟩

/-- Scan specification for the quoted-identifier scanner: processing `c`
from a clean state appends exactly the identifiers `ids`, ending outside
any quotes. -/
def QiPh (c : String) (ids : List String) : Prop :=
  ∀ acc : List String, List.foldl qiStep ⟨acc, none⟩ c.data = ⟨acc ++ ids, none⟩

/-! ## Helper lemmas -/

theorem foldl_extend {α β : Type} (f : α → List β) :
    ∀ (ls : List α) (init : List β),
      ls.foldl (fun vs line => vs ++ f line) init = init ++ (ls.map f).flatten
  | [], init => by simp
  | l :: ls, init => by
    simp [List.foldl_cons, foldl_extend f ls, List.append_assoc]

theorem inParamsLoop_spec :
    ∀ (vs : List String) (params : List Param) (ph : List String),
      inParamsLoop vs params ph =
        (params ++ vs.map Param.pstr,
          ph ++ (List.range vs.length).map fun i => "$" ++ toString (params.length + 1 + i))
  | [], params, ph => by simp [inParamsLoop]
  | v :: vs, params, ph => by
    rw [inParamsLoop, inParamsLoop_spec vs]
    simp [List.range_succ_eq_map, List.map_map, Function.comp_def, Nat.succ_eq_add_one,
      List.append_assoc, Nat.add_assoc, Nat.add_comm, Nat.add_left_comm]

/-! ## Claim theorems -/

/-- C7: `validate_columns` returns true iff every element of `requested` is
present in `allowed` under case-sensitive exact string match, and for an
empty `requested` it returns true for every `allowed`. -/
theorem C7_validate_columns_correct (requested allowed : List String) :
    (validate_columns requested allowed = true ↔ ∀ c ∈ requested, c ∈ allowed) ∧
      validate_columns [] allowed = true := by
  refine ⟨?_, rfl⟩
  simp [validate_columns, List.all_eq_true, List.contains, List.elem_iff]

/-- C10: with operator "is one of" and value `None`, `build_filter_condition`
raises (attribute access `None.split`) instead of returning a fragment or
none — so the spec's "value required" precondition is load-bearing. -/
theorem C10_is_one_of_none_raises (col : String) (params : List Param) :
    build_filter_condition col "is one of" none params = Except.error PyErr.attributeError := by
  rfl

/-- C8: with operator "is one of", the value is split on newlines, then each
segment on commas, and every non-empty whitespace-trimmed segment is appended
as one parameter (with matching placeholders); if zero values result the
compiler returns none and appends no parameters.  The spec's example
"FORD\nTOYOTA, HONDA" yields exactly the parameters FORD, TOYOTA, HONDA,
and an all-whitespace/comma value yields none. -/
theorem C8_is_one_of_parsing (col v : String) (params : List Param) :
    isOneOfValues v = ((pySplit v '\n').map
        (fun line => ((pySplit line ',').map pyStrip).filter fun s => s ≠ "")).flatten ∧
    build_filter_condition col "is one of" (some v) params =
      (if isOneOfValues v = [] then Except.ok (none, params)
       else Except.ok (some ("CAST(\"" ++ col ++ "\" AS VARCHAR) IN ("
          ++ String.intercalate ", " ((List.range (isOneOfValues v).length).map
              fun i => "$" ++ toString (params.length + 1 + i)) ++ ")"),
          params ++ (isOneOfValues v).map Param.pstr)) ∧
    isOneOfValues "FORD\nTOYOTA, HONDA" = ["FORD", "TOYOTA", "HONDA"] ∧
    isOneOfValues " ,  \n  , " = [] := by
  refine ⟨?_, ?_, by decide, by decide⟩
  · simp [isOneOfValues, foldl_extend, List.filter_map, Function.comp_def]
  · show (if isOneOfValues v = [] then _ else _) = _
    by_cases h : isOneOfValues v = []
    · simp [h]
    · simp only [h, if_false]
      have hv : (pySplit v '\n').foldl
          (fun vs line => vs ++ ((pySplit line ',').filter fun w => pyStrip w ≠ "").map pyStrip) []
          = isOneOfValues v := rfl
      rw [hv, inParamsLoop_spec]
      simp

/-- C9: for the comparison operators, a value that parses as a Python number
is appended as that number (a float) and the fragment compares a numeric cast
of the column (`TRY_CAST(... AS DOUBLE)`); otherwise the value is appended
as-is and the fragment compares the text representation
(`CAST(... AS VARCHAR)`).  In particular "100" parses to the float 100.0 and
"ABC" does not parse. -/
theorem C9_comparison_dispatch (col op : String) (val : Option String) (params : List Param)
    (hop : op = ">" ∨ op = "<" ∨ op = ">=" ∨ op = "<=") :
    (build_filter_condition col op val params =
      match pyFloatOfVal val with
      | some f => Except.ok (some ("TRY_CAST(\"" ++ col ++ "\" AS DOUBLE) " ++ op ++ " $"
          ++ toString (params.length + 1)), params ++ [Param.pnum f])
      | none => Except.ok (some ("CAST(\"" ++ col ++ "\" AS VARCHAR) " ++ op ++ " $"
          ++ toString (params.length + 1)), params ++ [paramOfVal val])) ∧
    pyFloatOfVal (some "100") = some (PyFloat.finite 100) ∧
    pyFloatOfVal (some "ABC") = none := by
  have h1 : op ≠ "is null" := by rcases hop with h | h | h | h <;> subst h <;> decide
  have h2 : op ≠ "not null" := by rcases hop with h | h | h | h <;> subst h <;> decide
  have h3 : op ≠ "contains" := by rcases hop with h | h | h | h <;> subst h <;> decide
  have h4 : op ≠ "equals" := by rcases hop with h | h | h | h <;> subst h <;> decide
  have h5 : op ≠ "is one of" := by rcases hop with h | h | h | h <;> subst h <;> decide
  refine ⟨?_, by decide, by decide⟩
  cases hpf : pyFloatOfVal val with
  | none =>
    simp [build_filter_condition, h1, h2, h3, h4, h5, hop, is_numeric, hpf]
  | some f =>
    simp [build_filter_condition, h1, h2, h3, h4, h5, hop, is_numeric, hpf]

/-- Witness for C9 at a concrete input: the hypothesis holds for ">" and the
two dispatch outcomes are realised by the spec's example values. -/
theorem C9_comparison_dispatch_witness :
    ((">" : String) = ">" ∨ (">" : String) = "<" ∨ (">" : String) = ">="
        ∨ (">" : String) = "<=") ∧
      build_filter_condition "CC" ">" (some "100") [] =
        Except.ok (some "TRY_CAST(\"CC\" AS DOUBLE) > $1", [Param.pnum (PyFloat.finite 100)]) ∧
      build_filter_condition "CC" ">" (some "ABC") [] =
        Except.ok (some "CAST(\"CC\" AS VARCHAR) > $1", [Param.pstr "ABC"]) := by
  refine ⟨Or.inl rfl, ?_, ?_⟩
  · exact ((C9_comparison_dispatch "CC" ">" (some "100") [] (Or.inl rfl)).1).trans (by rfl)
  · exact ((C9_comparison_dispatch "CC" ">" (some "ABC") [] (Or.inl rfl)).1).trans (by rfl)

/-- Counterexample to C1 as stated: the filter value consisting of a single
double-quote — an SQL metacharacter — is appended to the parameter list, yet
it IS a substring of the generated SQL text (the fixed template itself
contains double-quotes around identifiers), refuting "for any filter value
containing SQL metacharacters, the raw value is not a substring of the SQL
text". -/
theorem C1_counterexample :
    (build_query "Raw (individual records)" none none ["MAKE"] none none
        [("MAKE", "equals", some "\"")] 100 ["MAKE"]).map
      (fun r => (strContains r.1 "\"", r.2)) =
      Except.ok (true, [Param.pstr "\""]) := by rfl

/-- Counterexample to C3 as stated: a grouped-mode request with no group-by
column supplied succeeds, and the generated SQL's quoted identifiers are
three occurrences of `None` — an identifier that is not a member of the
schema snapshot `["MAKE"]`. -/
theorem C3_counterexample :
    (build_query "Grouped (summary)" none none [] none none [] 50 ["MAKE"]).map
        (fun r => quotedIdents r.1.data) = Except.ok ["None", "None", "None"] ∧
      ¬ ("None" ∈ (["MAKE"] : List String)) := by
  exact ⟨by rfl, by decide⟩

/-- C4 evaluated at the failing input: a grouped-mode request with zero
group-by columns (`group_by_col = None`) does NOT fail with a validation
error; `build_query` succeeds and emits SQL that groups by the literal
identifier `None` (the f-string rendering of Python `None`). -/
theorem C4_no_zero_group_check :
    (build_query "Grouped (summary)" none none [] none none [] 100 ["MAKE"]).map
      (fun r => (strContains r.1 "GROUP BY \"None\"", r.2)) = Except.ok (true, []) := by rfl

/-- Counterexample to C5 as stated: for a concrete grouped-mode request the
generated SQL contains `ORDER BY count DESC` but no tie-breaking group-key
column after it (`ORDER BY count DESC, "MAKE"` does not occur). -/
theorem C5_counterexample :
    (build_query "Grouped (summary)" (some "MAKE") (some "*") [] none none [] 50 ["MAKE"]).map
      (fun r => (strContains r.1 "ORDER BY count DESC",
        strContains r.1 "ORDER BY count DESC, \"MAKE\"")) = Except.ok (true, false) := by rfl

/-- Counterexample to C6 as stated: for a concrete grouped-mode request the
generated SQL DOES wrap the group-key column in a COALESCE to the
placeholder string `'(null)'`. -/
theorem C6_counterexample :
    (build_query "Grouped (summary)" (some "MAKE") (some "*") [] none none [] 50 ["MAKE"]).map
      (fun r => strContains r.1 "COALESCE(CAST(\"MAKE\" AS VARCHAR), '(null)')") =
      Except.ok true := by rfl


theorem build_query_eq (qm : String) (gb cc : Option String) (sc : List String)
    (sortc sord : Option String) (fs : List (String × String × Option String))
    (lim : Int) (avail : List String) :
    build_query qm gb cc sc sortc sord fs lim avail =
      if validate_columns (bqColumnsToValidate gb cc sc sortc fs) avail then
        match condLoop fs [] [] with
        | Except.error e => Except.error e
        | Except.ok (conditions, params) =>
          if qm = "Grouped (summary)" then
            Except.ok (groupedTemplate gb (whereClause conditions) lim, params)
          else if sc = [] then
            Except.error (PyErr.valueError "No columns selected for raw mode")
          else
            Except.ok (rawTemplate sc sortc sord (whereClause conditions) lim, params)
      else Except.error (PyErr.valueError "Invalid column name detected") := by
  by_cases hv : validate_columns (bqColumnsToValidate gb cc sc sortc fs) avail = true
  · cases hcl : condLoop fs [] [] with
    | error e =>
      simp only [build_query, bqColumnsToValidate] at hv ⊢
      rw [if_neg (not_not_intro hv), hcl, if_pos hv]
    | ok cp =>
      obtain ⟨conds, ps⟩ := cp
      simp only [build_query, bqColumnsToValidate, groupedTemplate, rawTemplate,
        whereClause] at hv ⊢
      rw [if_neg (not_not_intro hv), hcl, if_pos hv]
      simp only [ite_self]
  · simp only [build_query, bqColumnsToValidate] at hv ⊢
    rw [if_pos hv, if_neg hv]

theorem build_query_grouped_ok (gb cc : Option String) (sc : List String)
    (sortc sord : Option String) (fs : List (String × String × Option String))
    (lim : Int) (avail : List String) (q : String) (params : List Param)
    (h : build_query "Grouped (summary)" gb cc sc sortc sord fs lim avail
      = Except.ok (q, params)) :
    ∃ conditions, condLoop fs [] [] = Except.ok (conditions, params) ∧
      q = groupedTemplate gb (whereClause conditions) lim := by
  rw [build_query_eq] at h
  by_cases hv : validate_columns (bqColumnsToValidate gb cc sc sortc fs) avail = true
  · rw [if_pos hv] at h
    cases hcl : condLoop fs [] [] with
    | error e => rw [hcl] at h; simp at h
    | ok cp =>
      obtain ⟨conds, ps⟩ := cp
      rw [hcl] at h
      have hpair : (groupedTemplate gb (whereClause conds) lim, ps) = (q, params) :=
        Except.ok.inj h
      injection hpair with hq hp
      exact ⟨conds, by rw [hp], hq.symm⟩
  · rw [if_neg hv] at h; simp at h

/-- C5 amended: for every grouped-mode request on which `build_query`
succeeds, the generated SQL orders by `count DESC` only — the ORDER BY
clause is literally `ORDER BY count DESC` immediately followed by the LIMIT
clause, so no tie-breaking group-key columns are emitted. -/
theorem C5_amended_order_clause (gb cc : Option String) (sc : List String)
    (sortc sord : Option String) (fs : List (String × String × Option String))
    (lim : Int) (avail : List String) (q : String) (params : List Param)
    (h : build_query "Grouped (summary)" gb cc sc sortc sord fs lim avail
      = Except.ok (q, params)) :
    ∃ pre, q = pre ++ ("ORDER BY count DESC\n            LIMIT "
      ++ toString lim ++ "\n        ") := by
  obtain ⟨conds, -, hq⟩ := build_query_grouped_ok gb cc sc sortc sord fs lim avail q params h
  subst hq
  refine ⟨"\n            SELECT \n                COALESCE(CAST(\"" ++ pyStr gb
    ++ "\" AS VARCHAR), '(null)') as \"" ++ pyStr gb ++ "\",\n                "
    ++ "COUNT(*)" ++ " as count \n            FROM " ++ DB_TABLE
    ++ "\n            " ++ whereClause conds ++ "\n            GROUP BY \"" ++ pyStr gb
    ++ "\"\n            ", ?_⟩
  rw [groupedTemplate,
    show ("\"\n            ORDER BY count DESC\n            LIMIT " : String)
      = "\"\n            " ++ "ORDER BY count DESC\n            LIMIT " from rfl]
  simp only [String.append_assoc]

/-- Witness for C5 amended at a concrete grouped request (group key MAKE,
limit 50): its SQL ends in the bare `ORDER BY count DESC` / `LIMIT` tail. -/
theorem C5_amended_order_clause_witness :
    ∃ pre,
      "\n            SELECT \n                COALESCE(CAST(\"MAKE\" AS VARCHAR), '(null)') as \"MAKE\",\n                COUNT(*) as count \n            FROM mvr\n            \n            GROUP BY \"MAKE\"\n            ORDER BY count DESC\n            LIMIT 50\n        "
        = pre ++ ("ORDER BY count DESC\n            LIMIT "
            ++ toString (50 : Int) ++ "\n        ") :=
  C5_amended_order_clause (some "MAKE") (some "*") [] none none [] 50 ["MAKE"] _ [] (by rfl)

/-- C6 amended: for every grouped-mode request on which `build_query`
succeeds, the generated SQL DOES wrap the group-key column in
`COALESCE(CAST(... AS VARCHAR), '(null)')` in the SELECT list (substituting
the placeholder string `'(null)'` for NULL at the SQL level), while the
GROUP BY clause uses the raw quoted column. -/
theorem C6_amended_groupkey_coalesced (gb cc : Option String) (sc : List String)
    (sortc sord : Option String) (fs : List (String × String × Option String))
    (lim : Int) (avail : List String) (q : String) (params : List Param)
    (h : build_query "Grouped (summary)" gb cc sc sortc sord fs lim avail
      = Except.ok (q, params)) :
    (∃ l r, q = l ++ ("COALESCE(CAST(\"" ++ pyStr gb ++ "\" AS VARCHAR), '(null)') as \""
        ++ pyStr gb ++ "\"") ++ r) ∧
    (∃ l r, q = l ++ ("GROUP BY \"" ++ pyStr gb ++ "\"") ++ r) := by
  obtain ⟨conds, -, hq⟩ := build_query_grouped_ok gb cc sc sortc sord fs lim avail q params h
  subst hq
  constructor
  · refine ⟨"\n            SELECT \n                ",
      ",\n                " ++ "COUNT(*)" ++ " as count \n            FROM " ++ DB_TABLE
        ++ "\n            " ++ whereClause conds ++ "\n            GROUP BY \"" ++ pyStr gb
        ++ "\"\n            ORDER BY count DESC\n            LIMIT " ++ toString lim
        ++ "\n        ", ?_⟩
    rw [groupedTemplate,
      show ("\n            SELECT \n                COALESCE(CAST(\"" : String)
        = "\n            SELECT \n                " ++ "COALESCE(CAST(\"" from rfl,
      show ("\",\n                " : String) = "\"" ++ ",\n                " from rfl]
    simp only [String.append_assoc]
  · refine ⟨"\n            SELECT \n                COALESCE(CAST(\"" ++ pyStr gb
      ++ "\" AS VARCHAR), '(null)') as \"" ++ pyStr gb ++ "\",\n                "
      ++ "COUNT(*)" ++ " as count \n            FROM " ++ DB_TABLE ++ "\n            "
      ++ whereClause conds ++ "\n            ",
      "\n            ORDER BY count DESC\n            LIMIT " ++ toString lim
      ++ "\n        ", ?_⟩
    rw [groupedTemplate,
      show ("\n            GROUP BY \"" : String)
        = "\n            " ++ "GROUP BY \"" from rfl,
      show ("\"\n            ORDER BY count DESC\n            LIMIT " : String)
        = "\"" ++ "\n            ORDER BY count DESC\n            LIMIT " from rfl]
    simp only [String.append_assoc]

/-- Witness for C6 amended at a concrete grouped request (group key MAKE,
limit 50): the COALESCE-wrapped select expression and the raw GROUP BY both
occur in its SQL. -/
theorem C6_amended_groupkey_coalesced_witness :
    (∃ l r,
      "\n            SELECT \n                COALESCE(CAST(\"MAKE\" AS VARCHAR), '(null)') as \"MAKE\",\n                COUNT(*) as count \n            FROM mvr\n            \n            GROUP BY \"MAKE\"\n            ORDER BY count DESC\n            LIMIT 50\n        "
        = l ++ ("COALESCE(CAST(\"" ++ pyStr (some "MAKE")
            ++ "\" AS VARCHAR), '(null)') as \"" ++ pyStr (some "MAKE") ++ "\"") ++ r) ∧
    (∃ l r,
      "\n            SELECT \n                COALESCE(CAST(\"MAKE\" AS VARCHAR), '(null)') as \"MAKE\",\n                COUNT(*) as count \n            FROM mvr\n            \n            GROUP BY \"MAKE\"\n            ORDER BY count DESC\n            LIMIT 50\n        "
        = l ++ ("GROUP BY \"" ++ pyStr (some "MAKE") ++ "\"") ++ r) :=
  C6_amended_groupkey_coalesced (some "MAKE") (some "*") [] none none [] 50 ["MAKE"] _ []
    (by rfl)

/-! ## Placeholder-scanner lemmas -/

theorem phStep_none_not_dollar {c : Char} (h : ¬ c = '$') (t : List (List Char)) :
    phStep ⟨t, none⟩ c = ⟨t, none⟩ := by
  simp [phStep, h]

theorem foldl_phStep_no_dollar :
    ∀ (l : List Char), '$' ∉ l → ∀ t, List.foldl phStep ⟨t, none⟩ l = ⟨t, none⟩
  | [], _, t => rfl
  | c :: l, h, t => by
    have hc : ¬ c = '$' := fun hc => h (hc ▸ List.mem_cons_self c l)
    rw [List.foldl_cons, phStep_none_not_dollar hc,
      foldl_phStep_no_dollar l (fun hm => h (List.mem_cons_of_mem c hm))]

theorem phStep_nondigit (s : PhSt) {c : Char} (h : ¬ c.isDigit = true) :
    phStep s c = phStep (phClose s) c := by
  obtain ⟨t, cur⟩ := s
  cases cur with
  | none => rfl
  | some run =>
    by_cases hr : run = []
    · subst hr; simp [phStep, phClose, h]
    · simp [phStep, phClose, h, hr]

theorem foldl_phStep_digits :
    ∀ (ds : List Char), (∀ c ∈ ds, c.isDigit = true) →
      ∀ t run, List.foldl phStep ⟨t, some run⟩ ds = ⟨t, some (run ++ ds)⟩
  | [], _, t, run => by simp
  | c :: ds, h, t, run => by
    have hc : c.isDigit = true := h c (List.mem_cons_self c ds)
    rw [List.foldl_cons, show phStep ⟨t, some run⟩ c = ⟨t, some (run ++ [c])⟩ by
      simp [phStep, hc]]
    rw [foldl_phStep_digits ds (fun x hx => h x (List.mem_cons_of_mem c hx))]
    simp

theorem digitChar_isDigit : ∀ m, m < 10 → (Nat.digitChar m).isDigit = true := by decide

theorem toDigitsCore_mem :
    ∀ (fuel n : Nat) (ds : List Char), ∀ c ∈ Nat.toDigitsCore 10 fuel n ds,
      c ∈ ds ∨ c.isDigit = true
  | 0, n, ds, c, hc => Or.inl hc
  | fuel + 1, n, ds, c, hc => by
    rw [Nat.toDigitsCore] at hc
    by_cases h0 : n / 10 = 0
    · rw [if_pos h0] at hc
      rcases List.mem_cons.mp hc with h | h
      · exact Or.inr (h ▸ digitChar_isDigit _ (Nat.mod_lt _ (by norm_num)))
      · exact Or.inl h
    · rw [if_neg h0] at hc
      rcases toDigitsCore_mem fuel (n / 10) _ c hc with h | h
      · rcases List.mem_cons.mp h with h' | h'
        · exact Or.inr (h' ▸ digitChar_isDigit _ (Nat.mod_lt _ (by norm_num)))
        · exact Or.inl h'
      · exact Or.inr h

theorem toDigitsCore_ne_nil :
    ∀ (fuel n : Nat) (ds : List Char), fuel ≠ 0 ∨ ds ≠ [] →
      Nat.toDigitsCore 10 fuel n ds ≠ []
  | 0, n, ds, h => by
    rcases h with h | h
    · exact absurd rfl h
    · simpa [Nat.toDigitsCore] using h
  | fuel + 1, n, ds, _ => by
    rw [Nat.toDigitsCore]
    by_cases h0 : n / 10 = 0
    · rw [if_pos h0]; exact List.cons_ne_nil _ _
    · rw [if_neg h0]
      exact toDigitsCore_ne_nil fuel (n / 10) _ (Or.inr (List.cons_ne_nil _ _))

theorem reprD_isDigit (k : Nat) : ∀ c ∈ reprD k, c.isDigit = true := by
  intro c hc
  rcases toDigitsCore_mem (k + 1) k [] c hc with h | h
  · cases h
  · exact h

theorem reprD_ne_nil (k : Nat) : reprD k ≠ [] :=
  toDigitsCore_ne_nil (k + 1) k [] (Or.inl (Nat.succ_ne_zero k))

theorem reprD_no_dollar (k : Nat) : '$' ∉ reprD k := fun h => by
  have := reprD_isDigit k '$' h
  simp at this

theorem reprD_no_quote (k : Nat) : '"' ∉ reprD k := fun h => by
  have := reprD_isDigit k '"' h
  simp at this

theorem no_dollar_append {a b : String} (ha : '$' ∉ a.data) (hb : '$' ∉ b.data) :
    '$' ∉ (a ++ b).data := by
  rw [String.data_append]
  intro h
  rcases List.mem_append.mp h with h | h
  · exact ha h
  · exact hb h

theorem no_dollar_toString_nat (k : Nat) : '$' ∉ (toString k).data :=
  reprD_no_dollar k

theorem no_dollar_toString_int (i : Int) : '$' ∉ (toString i).data := by
  cases i with
  | ofNat m => exact reprD_no_dollar m
  | negSucc m =>
    show '$' ∉ ("-" ++ Nat.repr (m + 1)).data
    exact no_dollar_append (by decide) (reprD_no_dollar (m + 1))

theorem FragPh_no_dollar (c : String) (h : '$' ∉ c.data) : FragPh c [] := by
  intro t
  rw [foldl_phStep_no_dollar c.data h]
  simp [phClose]

theorem FragPh_lit_ph (a : String) (k : Nat) (h : '$' ∉ a.data) :
    FragPh (a ++ "$" ++ toString k) [k] := by
  intro t
  rw [String.data_append, String.data_append, List.foldl_append, List.foldl_append,
    foldl_phStep_no_dollar a.data h]
  rw [show List.foldl phStep (⟨t, none⟩ : PhSt) "$".data = ⟨t, some []⟩ from rfl]
  rw [show ((toString k).data) = reprD k from rfl,
    foldl_phStep_digits (reprD k) (reprD_isDigit k)]
  simp [phClose, reprD_ne_nil k]

theorem FragPh_prepend (a x : String) (ks : List Nat) (ha : '$' ∉ a.data)
    (hx : FragPh x ks) : FragPh (a ++ x) ks := by
  intro t
  rw [String.data_append, List.foldl_append, foldl_phStep_no_dollar a.data ha]
  exact hx t

theorem FragPh_append_lit (x sep : String) (ks : List Nat) (hx : FragPh x ks)
    (hsep : '$' ∉ sep.data) (c : Char) (l : List Char) (hd : sep.data = c :: l)
    (hc : ¬ c.isDigit = true) : FragPh (x ++ sep) ks := by
  intro t
  rw [String.data_append, List.foldl_append, hd, List.foldl_cons,
    phStep_nondigit _ hc, hx t]
  have hc' : ¬ c = '$' := fun h' => hsep (hd ▸ (h' ▸ List.mem_cons_self c l))
  rw [phStep_none_not_dollar hc',
    foldl_phStep_no_dollar l (fun hm => hsep (hd ▸ List.mem_cons_of_mem c hm))]
  simp [phClose]

theorem FragPh_glue (x sep y : String) (ks ks' : List Nat) (hx : FragPh x ks)
    (hy : FragPh y ks') (hsep : '$' ∉ sep.data) (c : Char) (l : List Char)
    (hd : sep.data = c :: l) (hc : ¬ c.isDigit = true) :
    FragPh (x ++ sep ++ y) (ks ++ ks') := by
  intro t
  rw [String.data_append, String.data_append, List.foldl_append, List.foldl_append,
    hd, List.foldl_cons, phStep_nondigit _ hc, hx t]
  have hc' : ¬ c = '$' := fun h' => hsep (hd ▸ (h' ▸ List.mem_cons_self c l))
  rw [phStep_none_not_dollar hc',
    foldl_phStep_no_dollar l (fun hm => hsep (hd ▸ List.mem_cons_of_mem c hm)),
    hy (t ++ ks.map reprD)]
  simp [List.map_append, List.append_assoc]

theorem intercalate_go_ph (sep : String) (hsep : '$' ∉ sep.data) (c : Char)
    (l : List Char) (hd : sep.data = c :: l) (hc : ¬ c.isDigit = true) :
    ∀ (bs : List String) (kss : List (List Nat)),
      List.Forall₂ (fun b kb => FragPh b kb) bs kss →
      ∀ (acc : String) (ks : List Nat), FragPh acc ks →
      FragPh (String.intercalate.go acc sep bs) (ks ++ kss.flatten)
  | _, _, List.Forall₂.nil, acc, ks, hacc => by
    simpa [String.intercalate.go] using hacc
  | _, _, List.Forall₂.cons hb hrest, acc, ks, hacc => by
    rename_i b kb bs kss
    rw [show String.intercalate.go acc sep (b :: bs)
      = String.intercalate.go (acc ++ sep ++ b) sep bs from rfl]
    have h1 : FragPh (acc ++ sep ++ b) (ks ++ kb) :=
      FragPh_glue acc sep b ks kb hacc hb hsep c l hd hc
    have h2 := intercalate_go_ph sep hsep c l hd hc bs kss hrest (acc ++ sep ++ b)
      (ks ++ kb) h1
    simpa [List.append_assoc] using h2

theorem intercalate_ph (sep : String) (hsep : '$' ∉ sep.data) (c : Char)
    (l : List Char) (hd : sep.data = c :: l) (hc : ¬ c.isDigit = true)
    (bs : List String) (kss : List (List Nat))
    (h : List.Forall₂ (fun b kb => FragPh b kb) bs kss) :
    FragPh (String.intercalate sep bs) kss.flatten := by
  cases h with
  | nil => exact FragPh_no_dollar "" (by simp)
  | cons hb hrest =>
    rename_i b kb bs' kss'
    rw [show String.intercalate sep (b :: bs') = String.intercalate.go b sep bs' from rfl]
    have := intercalate_go_ph sep hsep c l hd hc bs' kss' hrest b kb hb
    simpa using this

theorem data_append_ne_nil (a b : String) (h : a.data ≠ []) : (a ++ b).data ≠ [] := by
  rw [String.data_append]
  intro he
  exact h (List.append_eq_nil.mp he).1

theorem str_ne_empty_of_data_ne_nil {a : String} (h : a.data ≠ []) : a ≠ "" :=
  fun he => h (congrArg String.data he)

theorem forall₂_ph_list :
    ∀ (l : List Nat),
      List.Forall₂ (fun b kb => FragPh b kb)
        (l.map fun k => "$" ++ toString k) (l.map fun k => [k])
  | [] => List.Forall₂.nil
  | k :: l =>
    List.Forall₂.cons (FragPh_lit_ph "" k (List.not_mem_nil _)) (forall₂_ph_list l)

theorem flatten_singleton_map {α : Type} (f : Nat → α) :
    ∀ (l : List Nat), (l.map fun k => [f k]).flatten = l.map f
  | [] => rfl
  | k :: l => by simp [flatten_singleton_map f l]

theorem bfc_is_one_of_eq (col v : String) (p : List Param) :
    build_filter_condition col "is one of" (some v) p =
      if isOneOfValues v = [] then Except.ok (none, p)
      else Except.ok (some ("CAST(\"" ++ col ++ "\" AS VARCHAR) IN ("
        ++ String.intercalate ", " (inParamsLoop (isOneOfValues v) p []).2 ++ ")"),
        (inParamsLoop (isOneOfValues v) p []).1) := rfl

theorem bfc_ok_none (col op : String) (val : Option String) (p p' : List Param)
    (h : build_filter_condition col op val p = Except.ok (none, p')) :
    p' = p ∧ appendedValues op val = [] := by
  by_cases h1 : op = "is null"
  · subst h1; simp [build_filter_condition] at h
  by_cases h2 : op = "not null"
  · subst h2; simp [build_filter_condition] at h
  by_cases h3 : op = "contains"
  · subst h3; simp [build_filter_condition] at h
  by_cases h4 : op = "equals"
  · subst h4; simp [build_filter_condition] at h
  by_cases h5 : op = "is one of"
  · subst h5
    cases val with
    | none => simp [build_filter_condition] at h
    | some v =>
      rw [bfc_is_one_of_eq] at h
      by_cases hnil : isOneOfValues v = []
      · rw [if_pos hnil] at h
        simp at h
        simp [appendedValues, hnil, h.symm]
      · rw [if_neg hnil] at h
        simp at h
  by_cases h6 : op = ">" ∨ op = "<" ∨ op = ">=" ∨ op = "<="
  · cases hnum : is_numeric val with
    | true => simp [build_filter_condition, h1, h2, h3, h4, h5, h6, hnum] at h
    | false => simp [build_filter_condition, h1, h2, h3, h4, h5, h6, hnum] at h
  · simp [build_filter_condition, h1, h2, h3, h4, h5, h6] at h
    simp [appendedValues, h1, h2, h3, h4, h5, h6, h.symm]

theorem bfc_ok_some (col op : String) (val : Option String) (p p' : List Param)
    (c : String) (hcol : '$' ∉ col.data)
    (h : build_filter_condition col op val p = Except.ok (some c, p')) :
    p' = p ++ appendedValues op val ∧ c ≠ "" ∧
      FragPh c (List.range' (p.length + 1) (appendedValues op val).length) := by
  by_cases h1 : op = "is null"
  · subst h1
    simp [build_filter_condition] at h
    obtain ⟨hc, hp⟩ := h
    subst hc; subst hp
    refine ⟨by simp [appendedValues], ?_, ?_⟩
    · exact str_ne_empty_of_data_ne_nil (data_append_ne_nil _ _
        (data_append_ne_nil _ _ (by decide)))
    · simp only [appendedValues, List.length_nil, List.range']
      exact FragPh_no_dollar _ (no_dollar_append (no_dollar_append (by decide) hcol)
        (by decide))
  by_cases h2 : op = "not null"
  · subst h2
    simp [build_filter_condition] at h
    obtain ⟨hc, hp⟩ := h
    subst hc; subst hp
    refine ⟨by simp [appendedValues], ?_, ?_⟩
    · exact str_ne_empty_of_data_ne_nil (data_append_ne_nil _ _
        (data_append_ne_nil _ _ (by decide)))
    · simp only [appendedValues, List.length_nil, List.range']
      exact FragPh_no_dollar _ (no_dollar_append (no_dollar_append (by decide) hcol)
        (by decide))
  by_cases h3 : op = "contains"
  · subst h3
    simp [build_filter_condition] at h
    obtain ⟨hc, hp⟩ := h
    subst hc
    refine ⟨by simp [appendedValues, hp.symm], ?_, ?_⟩
    · exact str_ne_empty_of_data_ne_nil (data_append_ne_nil _ _
        (data_append_ne_nil _ _ (data_append_ne_nil _ _ (by decide))))
    · have key := FragPh_lit_ph ("CAST(\"" ++ col ++ "\" AS VARCHAR) ILIKE ")
        (p.length + 1)
        (no_dollar_append (no_dollar_append (by decide) hcol) (by decide))
      simp only [appendedValues, List.length_singleton, List.range'_one]
      rw [show ("\" AS VARCHAR) ILIKE $" : String)
        = "\" AS VARCHAR) ILIKE " ++ "$" from rfl]
      simpa [String.append_assoc] using key
  by_cases h4 : op = "equals"
  · subst h4
    simp [build_filter_condition] at h
    obtain ⟨hc, hp⟩ := h
    subst hc
    refine ⟨by simp [appendedValues, hp.symm], ?_, ?_⟩
    · exact str_ne_empty_of_data_ne_nil (data_append_ne_nil _ _
        (data_append_ne_nil _ _ (data_append_ne_nil _ _ (by decide))))
    · have key := FragPh_lit_ph ("CAST(\"" ++ col ++ "\" AS VARCHAR) = ")
        (p.length + 1)
        (no_dollar_append (no_dollar_append (by decide) hcol) (by decide))
      simp only [appendedValues, List.length_singleton, List.range'_one]
      rw [show ("\" AS VARCHAR) = $" : String) = "\" AS VARCHAR) = " ++ "$" from rfl]
      simpa [String.append_assoc] using key
  by_cases h5 : op = "is one of"
  · subst h5
    cases val with
    | none => simp [build_filter_condition] at h
    | some v =>
      rw [bfc_is_one_of_eq] at h
      by_cases hnil : isOneOfValues v = []
      · rw [if_pos hnil] at h; simp at h
      · rw [if_neg hnil, inParamsLoop_spec] at h
        simp only [Except.ok.injEq, Prod.mk.injEq, Option.some.injEq] at h
        obtain ⟨hc, hp⟩ := h
        subst hc
        have hlen : (appendedValues "is one of" (some v)).length
            = (isOneOfValues v).length := by
          simp [appendedValues]
        refine ⟨by simp [appendedValues, hp.symm], ?_, ?_⟩
        · exact str_ne_empty_of_data_ne_nil (data_append_ne_nil _ _
            (data_append_ne_nil _ _ (data_append_ne_nil _ _
              (data_append_ne_nil _ _ (by decide)))))
        · rw [hlen]
          have hfor := forall₂_ph_list ((List.range (isOneOfValues v).length).map
            fun i => p.length + 1 + i)
          simp only [List.map_map, Function.comp_def] at hfor
          have hinter := intercalate_ph ", " (by decide) ',' [' '] rfl (by decide)
            _ _ hfor
          rw [flatten_singleton_map] at hinter
          have hfrag := FragPh_append_lit _ ")" _
            (FragPh_prepend ("CAST(\"" ++ col ++ "\" AS VARCHAR) IN (") _ _
              (no_dollar_append (no_dollar_append (by decide) hcol) (by decide))
              hinter)
            (by decide) ')' [] rfl (by decide)
          rw [List.range'_eq_map_range]
          simpa [Function.comp_def] using hfrag
  by_cases h6 : op = ">" ∨ op = "<" ∨ op = ">=" ∨ op = "<="
  · have hopnd : '$' ∉ op.data := by
      rcases h6 with h | h | h | h <;> subst h <;> decide
    cases hnum : is_numeric val with
    | true =>
      simp [build_filter_condition, h1, h2, h3, h4, h5, h6, hnum] at h
      obtain ⟨hc, hp⟩ := h
      subst hc
      refine ⟨by simp [appendedValues, h1, h2, h3, h4, h5, h6, hnum, hp.symm], ?_, ?_⟩
      · exact str_ne_empty_of_data_ne_nil (data_append_ne_nil _ _
          (data_append_ne_nil _ _ (data_append_ne_nil _ _
            (data_append_ne_nil _ _ (data_append_ne_nil _ _ (by decide))))))
      · have key := FragPh_lit_ph ("TRY_CAST(\"" ++ col ++ "\" AS DOUBLE) " ++ op ++ " ")
          (p.length + 1)
          (no_dollar_append (no_dollar_append (no_dollar_append
            (no_dollar_append (by decide) hcol) (by decide)) hopnd) (by decide))
        simp only [appendedValues, h1, h2, h3, h4, h5, h6, hnum, if_true, if_false,
          List.length_singleton, List.range'_one]
        rw [show (" $" : String) = " " ++ "$" from rfl]
        simpa [String.append_assoc] using key
    | false =>
      simp [build_filter_condition, h1, h2, h3, h4, h5, h6, hnum] at h
      obtain ⟨hc, hp⟩ := h
      subst hc
      refine ⟨by simp [appendedValues, h1, h2, h3, h4, h5, h6, hnum, hp.symm], ?_, ?_⟩
      · exact str_ne_empty_of_data_ne_nil (data_append_ne_nil _ _
          (data_append_ne_nil _ _ (data_append_ne_nil _ _
            (data_append_ne_nil _ _ (data_append_ne_nil _ _ (by decide))))))
      · have key := FragPh_lit_ph ("CAST(\"" ++ col ++ "\" AS VARCHAR) " ++ op ++ " ")
          (p.length + 1)
          (no_dollar_append (no_dollar_append (no_dollar_append
            (no_dollar_append (by decide) hcol) (by decide)) hopnd) (by decide))
        simp only [appendedValues, h1, h2, h3, h4, h5, h6, hnum, if_true, if_false,
          List.length_singleton, List.range'_one]
        rw [show (" $" : String) = " " ++ "$" from rfl]
        simpa [String.append_assoc] using key
  · simp [build_filter_condition, h1, h2, h3, h4, h5, h6] at h

theorem intercalate_go_append_singleton (s c : String) :
    ∀ (bs : List String) (acc : String),
      String.intercalate.go acc s (bs ++ [c]) = String.intercalate.go acc s bs ++ s ++ c
  | [], acc => rfl
  | b :: bs, acc => by
    rw [show ((b :: bs) ++ [c]) = b :: (bs ++ [c]) from rfl,
      show String.intercalate.go acc s (b :: (bs ++ [c]))
        = String.intercalate.go (acc ++ s ++ b) s (bs ++ [c]) from rfl,
      intercalate_go_append_singleton s c bs (acc ++ s ++ b)]
    rfl

theorem intercalate_append_singleton (s b c : String) (bs : List String) :
    String.intercalate s ((b :: bs) ++ [c]) = String.intercalate s (b :: bs) ++ s ++ c := by
  show String.intercalate.go b s (bs ++ [c]) = _
  rw [intercalate_go_append_singleton]
  rfl

theorem condLoop_ph :
    ∀ (fs : List (String × String × Option String)) (conds : List String) (p : List Param)
      (conds' : List String) (p' : List Param),
      (∀ f ∈ fs, '$' ∉ f.1.data) →
      condLoop fs conds p = Except.ok (conds', p') →
      (conds = [] → p.length = 0) →
      FragPh (String.intercalate " AND " conds) (List.range' 1 p.length) →
      p' = p ++ (fs.map fun f => appendedValues f.2.1 f.2.2).flatten ∧
        (conds' = [] → p'.length = 0) ∧
        FragPh (String.intercalate " AND " conds') (List.range' 1 p'.length)
  | [], conds, p, conds', p', hfs, h, hemp, hph => by
    have h' : (Except.ok (conds, p) : Except PyErr (List String × List Param))
        = Except.ok (conds', p') := h
    simp only [Except.ok.injEq, Prod.mk.injEq] at h'
    obtain ⟨hc, hp⟩ := h'
    subst hc; subst hp
    exact ⟨by simp, hemp, hph⟩
  | (col, op, val) :: fs, conds, p, conds', p', hfs, h, hemp, hph => by
    cases hb : build_filter_condition col op val p with
    | error e =>
      rw [show condLoop ((col, op, val) :: fs) conds p
        = (match build_filter_condition col op val p with
           | Except.error e => Except.error e
           | Except.ok (condition, params') =>
             match condition with
             | some c =>
               if c = "" then condLoop fs conds params'
               else condLoop fs (conds ++ [c]) params'
             | none => condLoop fs conds params') from rfl, hb] at h
      exact absurd h (by simp)
    | ok r =>
      obtain ⟨copt, pmid⟩ := r
      rw [show condLoop ((col, op, val) :: fs) conds p
        = (match build_filter_condition col op val p with
           | Except.error e => Except.error e
           | Except.ok (condition, params') =>
             match condition with
             | some c =>
               if c = "" then condLoop fs conds params'
               else condLoop fs (conds ++ [c]) params'
             | none => condLoop fs conds params') from rfl, hb] at h
      cases copt with
      | none =>
        obtain ⟨hpm, happ⟩ := bfc_ok_none col op val p pmid hb
        subst hpm
        have h' : condLoop fs conds pmid = Except.ok (conds', p') := h
        have ih := condLoop_ph fs conds pmid conds' p'
          (fun f hf => hfs f (List.mem_cons_of_mem _ hf)) h' hemp hph
        refine ⟨?_, ih.2.1, ih.2.2⟩
        rw [ih.1]
        simp [happ]
      | some c =>
        have hcol : '$' ∉ col.data := hfs (col, op, val) (List.mem_cons_self _ _)
        obtain ⟨hpm, hcne, hfrag⟩ := bfc_ok_some col op val p pmid c hcol hb
        subst hpm
        have h' : (if c = "" then condLoop fs conds (p ++ appendedValues op val)
            else condLoop fs (conds ++ [c]) (p ++ appendedValues op val))
            = Except.ok (conds', p') := h
        rw [if_neg hcne] at h'
        have hemp' : conds ++ [c] = [] → (p ++ appendedValues op val).length = 0 :=
          fun hx => absurd hx (by simp)
        have hph' : FragPh (String.intercalate " AND " (conds ++ [c]))
            (List.range' 1 (p ++ appendedValues op val).length) := by
          rcases eq_or_ne conds [] with hc0 | hc0
          · subst hc0
            have hp0 : p.length = 0 := hemp rfl
            rw [show String.intercalate " AND " (([] : List String) ++ [c]) = c from rfl,
              List.length_append, hp0]
            rw [hp0] at hfrag
            simpa using hfrag
          · obtain ⟨b, bs, rfl⟩ := List.exists_cons_of_ne_nil hc0
            rw [intercalate_append_singleton, List.length_append]
            have hglue := FragPh_glue (String.intercalate " AND " (b :: bs)) " AND " c
              (List.range' 1 p.length)
              (List.range' (p.length + 1) (appendedValues op val).length)
              hph hfrag (by decide) ' ' "AND ".data rfl (by decide)
            rw [show p.length + 1 = 1 + 1 * p.length from by ring] at hglue
            rw [List.range'_append] at hglue
            rw [show (appendedValues op val).length + p.length
              = p.length + (appendedValues op val).length from Nat.add_comm _ _] at hglue
            exact hglue
        have ih := condLoop_ph fs (conds ++ [c]) (p ++ appendedValues op val) conds' p'
          (fun f hf => hfs f (List.mem_cons_of_mem _ hf)) h' hemp' hph'
        refine ⟨?_, ih.2.1, ih.2.2⟩
        rw [ih.1]
        simp [List.append_assoc]

theorem validate_columns_mem {cols allowed : List String}
    (h : validate_columns cols allowed = true) : ∀ c ∈ cols, c ∈ allowed := by
  simp [validate_columns, List.all_eq_true, List.contains, List.elem_iff] at h
  exact h

theorem build_query_ok_validate (qm : String) (gb cc : Option String) (sc : List String)
    (sortc sord : Option String) (fs : List (String × String × Option String))
    (lim : Int) (avail : List String) (q : String) (params : List Param)
    (h : build_query qm gb cc sc sortc sord fs lim avail = Except.ok (q, params)) :
    validate_columns (bqColumnsToValidate gb cc sc sortc fs) avail = true := by
  rw [build_query_eq] at h
  by_cases hv : validate_columns (bqColumnsToValidate gb cc sc sortc fs) avail = true
  · exact hv
  · rw [if_neg hv] at h; simp at h

theorem build_query_raw_ok (qm : String) (hqm : ¬ qm = "Grouped (summary)")
    (gb cc : Option String) (sc : List String) (sortc sord : Option String)
    (fs : List (String × String × Option String)) (lim : Int) (avail : List String)
    (q : String) (params : List Param)
    (h : build_query qm gb cc sc sortc sord fs lim avail = Except.ok (q, params)) :
    sc ≠ [] ∧ ∃ conditions, condLoop fs [] [] = Except.ok (conditions, params) ∧
      q = rawTemplate sc sortc sord (whereClause conditions) lim := by
  rw [build_query_eq] at h
  by_cases hv : validate_columns (bqColumnsToValidate gb cc sc sortc fs) avail = true
  · rw [if_pos hv] at h
    cases hcl : condLoop fs [] [] with
    | error e => rw [hcl] at h; simp at h
    | ok cp =>
      obtain ⟨conds, ps⟩ := cp
      rw [hcl] at h
      have h' : (if qm = "Grouped (summary)" then
          Except.ok (groupedTemplate gb (whereClause conds) lim, ps)
        else if sc = [] then
          Except.error (PyErr.valueError "No columns selected for raw mode")
        else Except.ok (rawTemplate sc sortc sord (whereClause conds) lim, ps))
          = Except.ok (q, params) := h
      rw [if_neg hqm] at h'
      by_cases hsc : sc = []
      · rw [if_pos hsc] at h'; simp at h'
      · rw [if_neg hsc] at h'
        have hpair := Except.ok.inj h'
        injection hpair with hq hp
        exact ⟨hsc, conds, by rw [hp], hq.symm⟩
  · rw [if_neg hv] at h; simp at h

theorem phTokens_of_FragPh {c : String} {ks : List Nat} (h : FragPh c ks) :
    phTokens c.data = ks.map reprD := by
  have h0 := h []
  simp [phTokens, h0]

theorem data_head_cons (a b : String) (c : Char) (l : List Char) (h : a.data = c :: l) :
    (a ++ b).data = c :: (l ++ b.data) := by
  rw [String.data_append, h]; rfl

theorem no_dollar_intercalate_go :
    ∀ (bs : List String) (acc sep : String), '$' ∉ acc.data → '$' ∉ sep.data →
      (∀ b ∈ bs, '$' ∉ b.data) → '$' ∉ (String.intercalate.go acc sep bs).data
  | [], acc, sep, ha, _, _ => ha
  | b :: bs, acc, sep, ha, hs, hb => by
    rw [show String.intercalate.go acc sep (b :: bs)
      = String.intercalate.go (acc ++ sep ++ b) sep bs from rfl]
    exact no_dollar_intercalate_go bs (acc ++ sep ++ b) sep
      (no_dollar_append (no_dollar_append ha hs) (hb b (List.mem_cons_self _ _))) hs
      (fun x hx => hb x (List.mem_cons_of_mem _ hx))

theorem no_dollar_intercalate (sep : String) (bs : List String)
    (hs : '$' ∉ sep.data) (hb : ∀ b ∈ bs, '$' ∉ b.data) :
    '$' ∉ (String.intercalate sep bs).data := by
  cases bs with
  | nil => exact List.not_mem_nil _
  | cons b bs =>
    rw [show String.intercalate sep (b :: bs) = String.intercalate.go b sep bs from rfl]
    exact no_dollar_intercalate_go bs b sep (hb b (List.mem_cons_self _ _)) hs
      (fun x hx => hb x (List.mem_cons_of_mem _ hx))

theorem whereClause_ph (conds : List String) (ks : List Nat)
    (hph : FragPh (String.intercalate " AND " conds) ks)
    (hemp : conds = [] → ks = []) : FragPh (whereClause conds) ks := by
  rcases eq_or_ne conds [] with hc | hc
  · subst hc
    rw [whereClause, if_neg (by simp), hemp rfl]
    exact FragPh_no_dollar "" (List.not_mem_nil _)
  · rw [whereClause, if_pos hc]
    exact FragPh_prepend "WHERE " _ ks (by decide) hph

/-- C2: parameter alignment.  For every request on which `build_query`
succeeds (with a schema whose column names contain no `$`, so that no
identifier can masquerade as a placeholder), the placeholder tokens of the
generated SQL text are exactly `$1..$n` in order — contiguous 1-based
numbering with no gaps and no duplicates — where `n = params.length`, and
the parameter list is exactly the concatenation, in filter order, of the
values each filter appends (so the value at index i is the one intended for
placeholder `$i`). -/
theorem C2_parameter_alignment (qm : String) (gb cc : Option String) (sc : List String)
    (sortc sord : Option String) (fs : List (String × String × Option String))
    (lim : Int) (avail : List String) (q : String) (params : List Param)
    (hnd : ∀ cname ∈ avail, '$' ∉ cname.data)
    (h : build_query qm gb cc sc sortc sord fs lim avail = Except.ok (q, params)) :
    phTokens q.data = (List.range' 1 params.length).map reprD ∧
      params = (fs.map fun f => appendedValues f.2.1 f.2.2).flatten := by
  have hv := build_query_ok_validate qm gb cc sc sortc sord fs lim avail q params h
  have hmem := validate_columns_mem hv
  have hfs : ∀ f ∈ fs, '$' ∉ f.1.data := by
    intro f hf
    apply hnd
    apply hmem
    have h1 : f.1 ∈ fs.map (fun g => g.1) := List.mem_map_of_mem _ hf
    simp only [bqColumnsToValidate, List.mem_append]
    tauto
  have hgbs : '$' ∉ (pyStr gb).data := by
    by_cases ht : pyTruthy gb = true
    · apply hnd
      apply hmem
      simp [bqColumnsToValidate, ht]
    · cases gb with
      | none => decide
      | some s =>
        simp [pyTruthy] at ht
        subst ht
        decide
  by_cases hqm : qm = "Grouped (summary)"
  · subst hqm
    obtain ⟨conds, hcl, hq⟩ :=
      build_query_grouped_ok gb cc sc sortc sord fs lim avail q params h
    obtain ⟨hp, hemp, hph⟩ := condLoop_ph fs [] [] conds params hfs hcl
      (fun _ => rfl) (FragPh_no_dollar "" (List.not_mem_nil _))
    have hwc : FragPh (whereClause conds) (List.range' 1 params.length) :=
      whereClause_ph conds _ hph (fun hcc => by rw [hemp hcc]; rfl)
    have hXnd : '$' ∉ ("\n            SELECT \n                COALESCE(CAST(\""
        ++ pyStr gb ++ "\" AS VARCHAR), '(null)') as \"" ++ pyStr gb
        ++ "\",\n                " ++ "COUNT(*)" ++ " as count \n            FROM "
        ++ DB_TABLE ++ "\n            ").data :=
      no_dollar_append (no_dollar_append (no_dollar_append (no_dollar_append
        (no_dollar_append (no_dollar_append (no_dollar_append
          (no_dollar_append (by decide) hgbs) (by decide)) hgbs) (by decide))
          (by decide)) (by decide)) (by decide)) (by decide)
    have hBnd : '$' ∉ ("\n            GROUP BY \"" ++ pyStr gb
        ++ "\"\n            ORDER BY count DESC\n            LIMIT "
        ++ toString lim ++ "\n        ").data :=
      no_dollar_append (no_dollar_append (no_dollar_append
        (no_dollar_append (by decide) hgbs) (by decide))
        (no_dollar_toString_int lim)) (by decide)
    have hd0 : ("\n            GROUP BY \"" : String).data
        = '\n' :: ("            GROUP BY \"" : String).data := rfl
    have hd1 := data_head_cons _ (pyStr gb) _ _ hd0
    have hd2 := data_head_cons _
      "\"\n            ORDER BY count DESC\n            LIMIT " _ _ hd1
    have hd3 := data_head_cons _ (toString lim) _ _ hd2
    have hd4 := data_head_cons _ "\n        " _ _ hd3
    have hstep2 := FragPh_prepend _ (whereClause conds) _ hXnd hwc
    have hstep3 := FragPh_append_lit _ _ _ hstep2 hBnd '\n' _ hd4 (by decide)
    refine ⟨?_, by simpa using hp⟩
    have heq : groupedTemplate gb (whereClause conds) lim =
        ("\n            SELECT \n                COALESCE(CAST(\"" ++ pyStr gb
          ++ "\" AS VARCHAR), '(null)') as \"" ++ pyStr gb
          ++ "\",\n                " ++ "COUNT(*)" ++ " as count \n            FROM "
          ++ DB_TABLE ++ "\n            " ++ whereClause conds)
        ++ ("\n            GROUP BY \"" ++ pyStr gb
          ++ "\"\n            ORDER BY count DESC\n            LIMIT "
          ++ toString lim ++ "\n        ") := by
      rw [groupedTemplate]
      simp [String.append_assoc]
    rw [hq, heq]
    exact phTokens_of_FragPh hstep3
  · obtain ⟨hscne, conds, hcl, hq⟩ :=
      build_query_raw_ok qm hqm gb cc sc sortc sord fs lim avail q params h
    obtain ⟨hp, hemp, hph⟩ := condLoop_ph fs [] [] conds params hfs hcl
      (fun _ => rfl) (FragPh_no_dollar "" (List.not_mem_nil _))
    have hwc : FragPh (whereClause conds) (List.range' 1 params.length) :=
      whereClause_ph conds _ hph (fun hcc => by rw [hemp hcc]; rfl)
    have hscnd : ∀ cname ∈ sc, '$' ∉ cname.data := by
      intro cname hcn
      apply hnd
      apply hmem
      simp only [bqColumnsToValidate, List.mem_append]
      tauto
    have hcolsnd : '$' ∉ (String.intercalate ", "
        (sc.map fun c => "\"" ++ c ++ "\"")).data := by
      apply no_dollar_intercalate _ _ (by decide)
      intro b hb
      obtain ⟨cname, hcn, rfl⟩ := List.mem_map.mp hb
      exact no_dollar_append (no_dollar_append (by decide) (hscnd cname hcn)) (by decide)
    have hordnd : '$' ∉ ((if pyTruthy sortc ∧ sortc ≠ some "(no sorting)" then
        "ORDER BY \"" ++ pyStr sortc ++ "\" "
          ++ (if sord = some "Ascending" then "ASC" else "DESC")
        else "") : String).data := by
      by_cases hcond : pyTruthy sortc ∧ sortc ≠ some "(no sorting)"
      · rw [if_pos hcond]
        have hsnd : '$' ∉ (pyStr sortc).data := by
          apply hnd
          apply hmem
          simp [bqColumnsToValidate, hcond.1, hcond.2]
        refine no_dollar_append (no_dollar_append (no_dollar_append (by decide) hsnd)
          (by decide)) ?_
        by_cases hasc : sord = some "Ascending"
        · rw [if_pos hasc]; decide
        · rw [if_neg hasc]; decide
      · rw [if_neg hcond]; exact List.not_mem_nil _
    have hXnd : '$' ∉ ("\n            SELECT "
        ++ String.intercalate ", " (sc.map fun c => "\"" ++ c ++ "\"")
        ++ "\n            FROM " ++ DB_TABLE ++ "\n            ").data :=
      no_dollar_append (no_dollar_append (no_dollar_append
        (no_dollar_append (by decide) hcolsnd) (by decide)) (by decide)) (by decide)
    have hBnd : '$' ∉ ("\n            "
        ++ (if pyTruthy sortc ∧ sortc ≠ some "(no sorting)" then
            "ORDER BY \"" ++ pyStr sortc ++ "\" "
              ++ (if sord = some "Ascending" then "ASC" else "DESC")
          else "")
        ++ "\n            LIMIT " ++ toString lim ++ "\n        ").data :=
      no_dollar_append (no_dollar_append (no_dollar_append
        (no_dollar_append (by decide) hordnd) (by decide))
        (no_dollar_toString_int lim)) (by decide)
    have hd0 : ("\n            " : String).data
        = '\n' :: ("            " : String).data := rfl
    have hd1 := data_head_cons _ (if pyTruthy sortc ∧ sortc ≠ some "(no sorting)" then
        "ORDER BY \"" ++ pyStr sortc ++ "\" "
          ++ (if sord = some "Ascending" then "ASC" else "DESC")
      else "") _ _ hd0
    have hd2 := data_head_cons _ "\n            LIMIT " _ _ hd1
    have hd3 := data_head_cons _ (toString lim) _ _ hd2
    have hd4 := data_head_cons _ "\n        " _ _ hd3
    have hstep2 := FragPh_prepend _ (whereClause conds) _ hXnd hwc
    have hstep3 := FragPh_append_lit _ _ _ hstep2 hBnd '\n' _ hd4 (by decide)
    refine ⟨?_, by simpa using hp⟩
    have heq : rawTemplate sc sortc sord (whereClause conds) lim =
        ("\n            SELECT "
          ++ String.intercalate ", " (sc.map fun c => "\"" ++ c ++ "\"")
          ++ "\n            FROM " ++ DB_TABLE ++ "\n            "
          ++ whereClause conds)
        ++ ("\n            "
          ++ (if pyTruthy sortc ∧ sortc ≠ some "(no sorting)" then
              "ORDER BY \"" ++ pyStr sortc ++ "\" "
                ++ (if sord = some "Ascending" then "ASC" else "DESC")
            else "")
          ++ "\n            LIMIT " ++ toString lim ++ "\n        ") := by
      rw [rawTemplate]
      simp [String.append_assoc]
    rw [hq, heq]
    exact phTokens_of_FragPh hstep3

/-- Witness for C2 at a concrete raw-mode request with an "is one of" filter
(two parameters) followed by a numeric comparison (one parameter): the SQL
contains exactly the placeholders `$1 $2 $3` in order and the parameter list
is the concatenation of the filters' appended values. -/
theorem C2_parameter_alignment_witness :
    phTokens ("\n            SELECT \"MAKE\"\n            FROM mvr\n            WHERE CAST(\"MAKE\" AS VARCHAR) IN ($1, $2) AND TRY_CAST(\"CC\" AS DOUBLE) > $3\n            \n            LIMIT 10\n        " : String).data
        = (List.range' 1 ([Param.pstr "A", Param.pstr "B",
            Param.pnum (PyFloat.finite 10)] : List Param).length).map reprD ∧
      ([Param.pstr "A", Param.pstr "B", Param.pnum (PyFloat.finite 10)] : List Param)
        = (([("MAKE", "is one of", some "A,B"), ("CC", ">", some "10")].map
            fun f => appendedValues f.2.1 f.2.2)).flatten :=
  C2_parameter_alignment "Raw (individual records)" none none ["MAKE"] none none
    [("MAKE", "is one of", some "A,B"), ("CC", ">", some "10")] 10 ["MAKE", "CC"]
    _ _ (by decide) (by rfl)

/-! ## Quoted-identifier-scanner lemmas -/

theorem char_not_mem_append {ch : Char} {a b : String} (ha : ch ∉ a.data)
    (hb : ch ∉ b.data) : ch ∉ (a ++ b).data := by
  rw [String.data_append]
  intro h
  rcases List.mem_append.mp h with h | h
  · exact ha h
  · exact hb h

theorem no_quote_toString_int (i : Int) : '"' ∉ (toString i).data := by
  cases i with
  | ofNat m => exact reprD_no_quote m
  | negSucc m =>
    show '"' ∉ ("-" ++ Nat.repr (m + 1)).data
    exact char_not_mem_append (by decide) (reprD_no_quote (m + 1))

theorem qiStep_none_not_quote {c : Char} (h : ¬ c = '"') (ids : List String) :
    qiStep ⟨ids, none⟩ c = ⟨ids, none⟩ := by
  simp [qiStep, h]

theorem foldl_qiStep_no_quote :
    ∀ (l : List Char), '"' ∉ l → ∀ ids, List.foldl qiStep ⟨ids, none⟩ l = ⟨ids, none⟩
  | [], _, ids => rfl
  | c :: l, h, ids => by
    have hc : ¬ c = '"' := fun hc => h (hc ▸ List.mem_cons_self c l)
    rw [List.foldl_cons, qiStep_none_not_quote hc,
      foldl_qiStep_no_quote l (fun hm => h (List.mem_cons_of_mem c hm))]

theorem foldl_qiStep_in_quote :
    ∀ (l : List Char), '"' ∉ l →
      ∀ ids run, List.foldl qiStep ⟨ids, some run⟩ l = ⟨ids, some (run ++ l)⟩
  | [], _, ids, run => by simp
  | c :: l, h, ids, run => by
    have hc : ¬ c = '"' := fun hc => h (hc ▸ List.mem_cons_self c l)
    rw [List.foldl_cons, show qiStep ⟨ids, some run⟩ c = ⟨ids, some (run ++ [c])⟩ by
      simp [qiStep, hc]]
    rw [foldl_qiStep_in_quote l (fun hm => h (List.mem_cons_of_mem c hm))]
    simp

theorem QiPh_lit (c : String) (h : '"' ∉ c.data) : QiPh c [] := by
  intro acc
  rw [foldl_qiStep_no_quote c.data h]
  simp

theorem QiPh_quoted (name : String) (h : '"' ∉ name.data) :
    QiPh ("\"" ++ name ++ "\"") [name] := by
  intro acc
  rw [String.data_append, String.data_append]
  rw [List.foldl_append, List.foldl_append]
  rw [show List.foldl qiStep (⟨acc, none⟩ : QiSt) "\"".data = ⟨acc, some []⟩ from rfl]
  rw [foldl_qiStep_in_quote name.data h]
  rfl

theorem QiPh_append {a b : String} {ids ids' : List String} (ha : QiPh a ids)
    (hb : QiPh b ids') : QiPh (a ++ b) (ids ++ ids') := by
  intro acc
  rw [String.data_append, List.foldl_append, ha acc, hb (acc ++ ids)]
  simp [List.append_assoc]

theorem no_quote_intercalate_go :
    ∀ (bs : List String) (acc sep : String), '"' ∉ acc.data → '"' ∉ sep.data →
      (∀ b ∈ bs, '"' ∉ b.data) → '"' ∉ (String.intercalate.go acc sep bs).data
  | [], acc, sep, ha, _, _ => ha
  | b :: bs, acc, sep, ha, hs, hb => by
    rw [show String.intercalate.go acc sep (b :: bs)
      = String.intercalate.go (acc ++ sep ++ b) sep bs from rfl]
    exact no_quote_intercalate_go bs (acc ++ sep ++ b) sep
      (char_not_mem_append (char_not_mem_append ha hs) (hb b (List.mem_cons_self _ _)))
      hs (fun x hx => hb x (List.mem_cons_of_mem _ hx))

theorem no_quote_intercalate (sep : String) (bs : List String)
    (hs : '"' ∉ sep.data) (hb : ∀ b ∈ bs, '"' ∉ b.data) :
    '"' ∉ (String.intercalate sep bs).data := by
  cases bs with
  | nil => exact List.not_mem_nil _
  | cons b bs =>
    rw [show String.intercalate sep (b :: bs) = String.intercalate.go b sep bs from rfl]
    exact no_quote_intercalate_go bs b sep (hb b (List.mem_cons_self _ _)) hs
      (fun x hx => hb x (List.mem_cons_of_mem _ hx))

theorem bfc_ok_some_qi (col op : String) (val : Option String) (p p' : List Param)
    (c : String) (hcol : '"' ∉ col.data)
    (h : build_filter_condition col op val p = Except.ok (some c, p')) :
    QiPh c [col] := by
  by_cases h1 : op = "is null"
  · subst h1
    simp [build_filter_condition] at h
    obtain ⟨hc, -⟩ := h
    subst hc
    have key := QiPh_append (QiPh_quoted col hcol) (QiPh_lit " IS NULL" (by decide))
    rw [show ("\" IS NULL" : String) = "\"" ++ " IS NULL" from rfl]
    simpa [String.append_assoc] using key
  by_cases h2 : op = "not null"
  · subst h2
    simp [build_filter_condition] at h
    obtain ⟨hc, -⟩ := h
    subst hc
    have key := QiPh_append (QiPh_quoted col hcol) (QiPh_lit " IS NOT NULL" (by decide))
    rw [show ("\" IS NOT NULL" : String) = "\"" ++ " IS NOT NULL" from rfl]
    simpa [String.append_assoc] using key
  by_cases h3 : op = "contains"
  · subst h3
    simp [build_filter_condition] at h
    obtain ⟨hc, -⟩ := h
    subst hc
    have key := QiPh_append (QiPh_append (QiPh_append
      (QiPh_lit "CAST(" (by decide)) (QiPh_quoted col hcol))
      (QiPh_lit " AS VARCHAR) ILIKE $" (by decide)))
      (QiPh_lit (toString (p.length + 1)) (reprD_no_quote _))
    rw [show ("CAST(\"" : String) = "CAST(" ++ "\"" from rfl,
      show ("\" AS VARCHAR) ILIKE $" : String) = "\"" ++ " AS VARCHAR) ILIKE $" from rfl]
    simpa [String.append_assoc] using key
  by_cases h4 : op = "equals"
  · subst h4
    simp [build_filter_condition] at h
    obtain ⟨hc, -⟩ := h
    subst hc
    have key := QiPh_append (QiPh_append (QiPh_append
      (QiPh_lit "CAST(" (by decide)) (QiPh_quoted col hcol))
      (QiPh_lit " AS VARCHAR) = $" (by decide)))
      (QiPh_lit (toString (p.length + 1)) (reprD_no_quote _))
    rw [show ("CAST(\"" : String) = "CAST(" ++ "\"" from rfl,
      show ("\" AS VARCHAR) = $" : String) = "\"" ++ " AS VARCHAR) = $" from rfl]
    simpa [String.append_assoc] using key
  by_cases h5 : op = "is one of"
  · subst h5
    cases val with
    | none => simp [build_filter_condition] at h
    | some v =>
      rw [bfc_is_one_of_eq] at h
      by_cases hnil : isOneOfValues v = []
      · rw [if_pos hnil] at h; simp at h
      · rw [if_neg hnil, inParamsLoop_spec] at h
        simp only [Except.ok.injEq, Prod.mk.injEq, Option.some.injEq] at h
        obtain ⟨hc, -⟩ := h
        subst hc
        have hinter : '"' ∉ (String.intercalate ", "
            ([] ++ (List.range (isOneOfValues v).length).map
              fun i => "$" ++ toString (p.length + 1 + i))).data := by
          apply no_quote_intercalate _ _ (by decide)
          intro b hb
          simp only [List.nil_append, List.mem_map] at hb
          obtain ⟨i, -, rfl⟩ := hb
          exact char_not_mem_append (by decide) (reprD_no_quote _)
        have key := QiPh_append (QiPh_append (QiPh_append (QiPh_append
          (QiPh_lit "CAST(" (by decide)) (QiPh_quoted col hcol))
          (QiPh_lit " AS VARCHAR) IN (" (by decide)))
          (QiPh_lit _ hinter)) (QiPh_lit ")" (by decide))
        rw [show ("CAST(\"" : String) = "CAST(" ++ "\"" from rfl,
          show ("\" AS VARCHAR) IN (" : String) = "\"" ++ " AS VARCHAR) IN (" from rfl]
        simpa [String.append_assoc] using key
  by_cases h6 : op = ">" ∨ op = "<" ∨ op = ">=" ∨ op = "<="
  · have hopnq : '"' ∉ op.data := by
      rcases h6 with h' | h' | h' | h' <;> subst h' <;> decide
    cases hnum : is_numeric val with
    | true =>
      simp [build_filter_condition, h1, h2, h3, h4, h5, h6, hnum] at h
      obtain ⟨hc, -⟩ := h
      subst hc
      have key := QiPh_append (QiPh_append (QiPh_append (QiPh_append
        (QiPh_lit "TRY_CAST(" (by decide)) (QiPh_quoted col hcol))
        (QiPh_lit " AS DOUBLE) " (by decide)))
        (QiPh_append (QiPh_lit op hopnq) (QiPh_lit " $" (by decide))))
        (QiPh_lit (toString (p.length + 1)) (reprD_no_quote _))
      rw [show ("TRY_CAST(\"" : String) = "TRY_CAST(" ++ "\"" from rfl,
        show ("\" AS DOUBLE) " : String) = "\"" ++ " AS DOUBLE) " from rfl]
      simpa [String.append_assoc] using key
    | false =>
      simp [build_filter_condition, h1, h2, h3, h4, h5, h6, hnum] at h
      obtain ⟨hc, -⟩ := h
      subst hc
      have key := QiPh_append (QiPh_append (QiPh_append (QiPh_append
        (QiPh_lit "CAST(" (by decide)) (QiPh_quoted col hcol))
        (QiPh_lit " AS VARCHAR) " (by decide)))
        (QiPh_append (QiPh_lit op hopnq) (QiPh_lit " $" (by decide))))
        (QiPh_lit (toString (p.length + 1)) (reprD_no_quote _))
      rw [show ("CAST(\"" : String) = "CAST(" ++ "\"" from rfl,
        show ("\" AS VARCHAR) " : String) = "\"" ++ " AS VARCHAR) " from rfl]
      simpa [String.append_assoc] using key
  · simp [build_filter_condition, h1, h2, h3, h4, h5, h6] at h

theorem intercalate_go_qi (P : String → Prop) (sep : String) (hsep : '"' ∉ sep.data) :
    ∀ (bs : List String) (acc : String) (ids : List String),
      QiPh acc ids → (∀ i ∈ ids, P i) →
      (∀ b ∈ bs, ∃ idsb, QiPh b idsb ∧ ∀ i ∈ idsb, P i) →
      ∃ ids', QiPh (String.intercalate.go acc sep bs) ids' ∧ ∀ i ∈ ids', P i
  | [], acc, ids, ha, hp, _ => ⟨ids, ha, hp⟩
  | b :: bs, acc, ids, ha, hp, hb => by
    obtain ⟨idsb, hqb, hpb⟩ := hb b (List.mem_cons_self _ _)
    rw [show String.intercalate.go acc sep (b :: bs)
      = String.intercalate.go (acc ++ sep ++ b) sep bs from rfl]
    have hacc' : QiPh (acc ++ sep ++ b) (ids ++ [] ++ idsb) :=
      QiPh_append (QiPh_append ha (QiPh_lit sep hsep)) hqb
    refine intercalate_go_qi P sep hsep bs (acc ++ sep ++ b) _ hacc' ?_
      (fun x hx => hb x (List.mem_cons_of_mem _ hx))
    intro i hi
    rcases List.mem_append.mp hi with hi | hi
    · rcases List.mem_append.mp hi with hi | hi
      · exact hp i hi
      · exact absurd hi (List.not_mem_nil i)
    · exact hpb i hi

theorem intercalate_qi (P : String → Prop) (sep : String) (hsep : '"' ∉ sep.data)
    (bs : List String) (hb : ∀ b ∈ bs, ∃ idsb, QiPh b idsb ∧ ∀ i ∈ idsb, P i) :
    ∃ ids, QiPh (String.intercalate sep bs) ids ∧ ∀ i ∈ ids, P i := by
  cases bs with
  | nil =>
    exact ⟨[], QiPh_lit "" (List.not_mem_nil _), fun i hi => absurd hi (List.not_mem_nil i)⟩
  | cons b bs =>
    obtain ⟨idsb, hqb, hpb⟩ := hb b (List.mem_cons_self _ _)
    rw [show String.intercalate sep (b :: bs) = String.intercalate.go b sep bs from rfl]
    exact intercalate_go_qi P sep hsep bs b idsb hqb hpb
      (fun x hx => hb x (List.mem_cons_of_mem _ hx))

theorem condLoop_qi (P : String → Prop) (hquote : ∀ s, P s → '"' ∉ s.data) :
    ∀ (fs : List (String × String × Option String)) (conds : List String) (p : List Param)
      (conds' : List String) (p' : List Param),
      (∀ f ∈ fs, P f.1) →
      condLoop fs conds p = Except.ok (conds', p') →
      (∀ c ∈ conds, ∃ ids, QiPh c ids ∧ ∀ i ∈ ids, P i) →
      ∀ c ∈ conds', ∃ ids, QiPh c ids ∧ ∀ i ∈ ids, P i
  | [], conds, p, conds', p', _, h, hc => by
    have h' : (Except.ok (conds, p) : Except PyErr (List String × List Param))
        = Except.ok (conds', p') := h
    simp only [Except.ok.injEq, Prod.mk.injEq] at h'
    obtain ⟨heq, -⟩ := h'
    subst heq
    exact hc
  | (col, op, val) :: fs, conds, p, conds', p', hfs, h, hc => by
    cases hb : build_filter_condition col op val p with
    | error e =>
      rw [show condLoop ((col, op, val) :: fs) conds p
        = (match build_filter_condition col op val p with
           | Except.error e => Except.error e
           | Except.ok (condition, params') =>
             match condition with
             | some c =>
               if c = "" then condLoop fs conds params'
               else condLoop fs (conds ++ [c]) params'
             | none => condLoop fs conds params') from rfl, hb] at h
      exact absurd h (by simp)
    | ok r =>
      obtain ⟨copt, pmid⟩ := r
      rw [show condLoop ((col, op, val) :: fs) conds p
        = (match build_filter_condition col op val p with
           | Except.error e => Except.error e
           | Except.ok (condition, params') =>
             match condition with
             | some c =>
               if c = "" then condLoop fs conds params'
               else condLoop fs (conds ++ [c]) params'
             | none => condLoop fs conds params') from rfl, hb] at h
      cases copt with
      | none =>
        have h' : condLoop fs conds pmid = Except.ok (conds', p') := h
        exact condLoop_qi P hquote fs conds pmid conds' p'
          (fun f hf => hfs f (List.mem_cons_of_mem _ hf)) h' hc
      | some c =>
        have hcolP : P col := hfs (col, op, val) (List.mem_cons_self _ _)
        have hqi := bfc_ok_some_qi col op val p pmid c (hquote col hcolP) hb
        by_cases hce : c = ""
        · have h' : condLoop fs conds pmid = Except.ok (conds', p') := by
            have h'' : (if c = "" then condLoop fs conds pmid
                else condLoop fs (conds ++ [c]) pmid) = Except.ok (conds', p') := h
            rwa [if_pos hce] at h''
          exact condLoop_qi P hquote fs conds pmid conds' p'
            (fun f hf => hfs f (List.mem_cons_of_mem _ hf)) h' hc
        · have h' : condLoop fs (conds ++ [c]) pmid = Except.ok (conds', p') := by
            have h'' : (if c = "" then condLoop fs conds pmid
                else condLoop fs (conds ++ [c]) pmid) = Except.ok (conds', p') := h
            rwa [if_neg hce] at h''
          refine condLoop_qi P hquote fs (conds ++ [c]) pmid conds' p'
            (fun f hf => hfs f (List.mem_cons_of_mem _ hf)) h' ?_
          intro x hx
          rcases List.mem_append.mp hx with hx | hx
          · exact hc x hx
          · rcases List.mem_singleton.mp hx with rfl
            refine ⟨[col], hqi, ?_⟩
            intro i hi
            rcases List.mem_singleton.mp hi with rfl
            exact hcolP

theorem quotedIdents_of_QiPh {c : String} {ids : List String} (h : QiPh c ids) :
    quotedIdents c.data = ids := by
  have h0 := h []
  simp [quotedIdents, h0]

theorem whereClause_qi (P : String → Prop) (conds : List String)
    (hconds : ∀ c ∈ conds, ∃ ids, QiPh c ids ∧ ∀ i ∈ ids, P i) :
    ∃ ids, QiPh (whereClause conds) ids ∧ ∀ i ∈ ids, P i := by
  rcases eq_or_ne conds [] with rfl | hne
  · refine ⟨[], ?_, fun i hi => absurd hi (List.not_mem_nil i)⟩
    rw [whereClause, if_neg (by simp)]
    exact QiPh_lit "" (List.not_mem_nil _)
  · obtain ⟨ids, hq, hp⟩ := intercalate_qi P " AND " (by decide) conds hconds
    refine ⟨ids, ?_, hp⟩
    rw [whereClause, if_pos hne]
    have := QiPh_append (QiPh_lit "WHERE " (by decide)) hq
    simpa using this

/-- C3 amended: identifier validation with fail-fast.  If any referenced
column is absent from the schema snapshot, `build_query` raises
`ValueError("Invalid column name detected")` and no SQL is constructed.
Conversely, whenever `build_query` succeeds on a request that, in grouped
mode, actually supplies a group-by column (Python-truthy), every
double-quoted identifier in the generated SQL is a member of the schema
snapshot (schema names assumed quote-free so identifiers scan
unambiguously).  The amendment over the original claim: a grouped request
with `group_by_col = None` slips through validation and inlines the
identifier `None`, see the counterexample. -/
theorem C3_amended_identifier_validation (qm : String) (gb cc : Option String)
    (sc : List String) (sortc sord : Option String)
    (fs : List (String × String × Option String)) (lim : Int) (avail : List String)
    (hschema : ∀ cname ∈ avail, '"' ∉ cname.data) :
    (validate_columns (bqColumnsToValidate gb cc sc sortc fs) avail = false →
      build_query qm gb cc sc sortc sord fs lim avail
        = Except.error (PyErr.valueError "Invalid column name detected")) ∧
    (∀ q params, build_query qm gb cc sc sortc sord fs lim avail = Except.ok (q, params) →
      (qm = "Grouped (summary)" → pyTruthy gb = true) →
      ∀ ident ∈ quotedIdents q.data, ident ∈ avail) := by
  constructor
  · intro hfalse
    rw [build_query_eq, if_neg (by simp [hfalse])]
  · intro q params h hgbtruthy
    have hv := build_query_ok_validate qm gb cc sc sortc sord fs lim avail q params h
    have hmem := validate_columns_mem hv
    have hquote : ∀ s, s ∈ avail → '"' ∉ s.data := hschema
    have hfsP : ∀ f ∈ fs, f.1 ∈ avail := by
      intro f hf
      apply hmem
      have h1 : f.1 ∈ fs.map (fun g => g.1) := List.mem_map_of_mem _ hf
      simp only [bqColumnsToValidate, List.mem_append]
      tauto
    by_cases hqm : qm = "Grouped (summary)"
    · subst hqm
      have hgbt : pyTruthy gb = true := hgbtruthy rfl
      have hgbmem : pyStr gb ∈ avail := by
        apply hmem
        simp [bqColumnsToValidate, hgbt]
      have hgbq : '"' ∉ (pyStr gb).data := hschema _ hgbmem
      obtain ⟨conds, hcl, hq⟩ :=
        build_query_grouped_ok gb cc sc sortc sord fs lim avail q params h
      have hconds := condLoop_qi (· ∈ avail) hquote fs [] [] conds params hfsP hcl
        (fun c hc => absurd hc (List.not_mem_nil c))
      obtain ⟨wcids, hwcq, hwcp⟩ := whereClause_qi (· ∈ avail) conds hconds
      have k1 := QiPh_append
        (QiPh_lit "\n            SELECT \n                COALESCE(CAST(" (by decide))
        (QiPh_quoted (pyStr gb) hgbq)
      have k2 := QiPh_append k1 (QiPh_lit " AS VARCHAR), '(null)') as " (by decide))
      have k3 := QiPh_append k2 (QiPh_quoted (pyStr gb) hgbq)
      have k4 := QiPh_append k3 (QiPh_lit ",\n                " (by decide))
      have k5 := QiPh_append k4 (QiPh_lit "COUNT(*)" (by decide))
      have k6 := QiPh_append k5 (QiPh_lit " as count \n            FROM " (by decide))
      have k7 := QiPh_append k6 (QiPh_lit DB_TABLE (by decide))
      have k8 := QiPh_append k7 (QiPh_lit "\n            " (by decide))
      have k9 := QiPh_append k8 hwcq
      have k10 := QiPh_append k9 (QiPh_lit "\n            GROUP BY " (by decide))
      have k11 := QiPh_append k10 (QiPh_quoted (pyStr gb) hgbq)
      have k12 := QiPh_append k11
        (QiPh_lit "\n            ORDER BY count DESC\n            LIMIT " (by decide))
      have k13 := QiPh_append k12 (QiPh_lit (toString lim) (no_quote_toString_int lim))
      have k14 := QiPh_append k13 (QiPh_lit "\n        " (by decide))
      have k14' : QiPh ("\n            SELECT \n                COALESCE(CAST("
          ++ ("\"" ++ pyStr gb ++ "\"") ++ " AS VARCHAR), '(null)') as "
          ++ ("\"" ++ pyStr gb ++ "\"") ++ ",\n                " ++ "COUNT(*)"
          ++ " as count \n            FROM " ++ DB_TABLE ++ "\n            "
          ++ whereClause conds ++ "\n            GROUP BY "
          ++ ("\"" ++ pyStr gb ++ "\"")
          ++ "\n            ORDER BY count DESC\n            LIMIT "
          ++ toString lim ++ "\n        ")
          (pyStr gb :: pyStr gb :: (wcids ++ [pyStr gb])) := by
        simpa using k14
      have heq : groupedTemplate gb (whereClause conds) lim =
          "\n            SELECT \n                COALESCE(CAST("
          ++ ("\"" ++ pyStr gb ++ "\"") ++ " AS VARCHAR), '(null)') as "
          ++ ("\"" ++ pyStr gb ++ "\"") ++ ",\n                " ++ "COUNT(*)"
          ++ " as count \n            FROM " ++ DB_TABLE ++ "\n            "
          ++ whereClause conds ++ "\n            GROUP BY "
          ++ ("\"" ++ pyStr gb ++ "\"")
          ++ "\n            ORDER BY count DESC\n            LIMIT "
          ++ toString lim ++ "\n        " := by
        rw [groupedTemplate,
          show ("\n            SELECT \n                COALESCE(CAST(\"" : String)
            = "\n            SELECT \n                COALESCE(CAST(" ++ "\"" from rfl,
          show ("\" AS VARCHAR), '(null)') as \"" : String)
            = "\"" ++ " AS VARCHAR), '(null)') as " ++ "\"" from rfl,
          show ("\",\n                " : String) = "\"" ++ ",\n                " from rfl,
          show ("\n            GROUP BY \"" : String)
            = "\n            GROUP BY " ++ "\"" from rfl,
          show ("\"\n            ORDER BY count DESC\n            LIMIT " : String)
            = "\"" ++ "\n            ORDER BY count DESC\n            LIMIT " from rfl]
        simp only [String.append_assoc]
      intro ident hident
      rw [hq, heq, quotedIdents_of_QiPh k14'] at hident
      rcases List.mem_cons.mp hident with rfl | hident
      · exact hgbmem
      rcases List.mem_cons.mp hident with rfl | hident
      · exact hgbmem
      rcases List.mem_append.mp hident with hident | hident
      · exact hwcp ident hident
      · rcases List.mem_singleton.mp hident with rfl
        exact hgbmem
    · obtain ⟨hscne, conds, hcl, hq⟩ :=
        build_query_raw_ok qm hqm gb cc sc sortc sord fs lim avail q params h
      have hconds := condLoop_qi (· ∈ avail) hquote fs [] [] conds params hfsP hcl
        (fun c hc => absurd hc (List.not_mem_nil c))
      obtain ⟨wcids, hwcq, hwcp⟩ := whereClause_qi (· ∈ avail) conds hconds
      have hscmem : ∀ cname ∈ sc, cname ∈ avail := by
        intro cname hcn
        apply hmem
        simp only [bqColumnsToValidate, List.mem_append]
        tauto
      obtain ⟨colids, hcolq, hcolp⟩ := intercalate_qi (· ∈ avail) ", " (by decide)
        (sc.map fun c => "\"" ++ c ++ "\"") (by
          intro b hb
          obtain ⟨cn, hcn, rfl⟩ := List.mem_map.mp hb
          refine ⟨[cn], QiPh_quoted cn (hschema cn (hscmem cn hcn)), ?_⟩
          intro i hi
          rw [List.mem_singleton.mp hi]
          exact hscmem cn hcn)
      have hord : ∃ oids, QiPh (if pyTruthy sortc ∧ sortc ≠ some "(no sorting)" then
            "ORDER BY \"" ++ pyStr sortc ++ "\" "
              ++ (if sord = some "Ascending" then "ASC" else "DESC")
          else "") oids ∧ ∀ i ∈ oids, i ∈ avail := by
        by_cases hcond : pyTruthy sortc ∧ sortc ≠ some "(no sorting)"
        · have hsmem : pyStr sortc ∈ avail := by
            apply hmem
            simp [bqColumnsToValidate, hcond.1, hcond.2]
          refine ⟨[pyStr sortc], ?_, ?_⟩
          · rw [if_pos hcond]
            have hdirq : '"' ∉ ((if sord = some "Ascending" then "ASC" else "DESC")
                : String).data := by
              by_cases hasc : sord = some "Ascending"
              · rw [if_pos hasc]; decide
              · rw [if_neg hasc]; decide
            have := QiPh_append (QiPh_append (QiPh_append
              (QiPh_lit "ORDER BY " (by decide))
              (QiPh_quoted (pyStr sortc) (hschema _ hsmem)))
              (QiPh_lit " " (by decide))) (QiPh_lit _ hdirq)
            rw [show ("ORDER BY \"" : String) = "ORDER BY " ++ "\"" from rfl,
              show ("\" " : String) = "\"" ++ " " from rfl]
            simpa [String.append_assoc] using this
          · intro i hi
            rcases List.mem_singleton.mp hi with rfl
            exact hsmem
        · refine ⟨[], ?_, fun i hi => absurd hi (List.not_mem_nil i)⟩
          rw [if_neg hcond]
          exact QiPh_lit "" (List.not_mem_nil _)
      obtain ⟨oids, hoq, hop⟩ := hord
      have k1 := QiPh_append (QiPh_lit "\n            SELECT " (by decide)) hcolq
      have k2 := QiPh_append k1 (QiPh_lit "\n            FROM " (by decide))
      have k3 := QiPh_append k2 (QiPh_lit DB_TABLE (by decide))
      have k4 := QiPh_append k3 (QiPh_lit "\n            " (by decide))
      have k5 := QiPh_append k4 hwcq
      have k6 := QiPh_append k5 (QiPh_lit "\n            " (by decide))
      have k7 := QiPh_append k6 hoq
      have k8 := QiPh_append k7 (QiPh_lit "\n            LIMIT " (by decide))
      have k9 := QiPh_append k8 (QiPh_lit (toString lim) (no_quote_toString_int lim))
      have k10 := QiPh_append k9 (QiPh_lit "\n        " (by decide))
      have k10' : QiPh (rawTemplate sc sortc sord (whereClause conds) lim)
          (colids ++ wcids ++ oids) := by
        rw [rawTemplate]
        simpa [String.append_assoc] using k10
      intro ident hident
      rw [hq, quotedIdents_of_QiPh k10'] at hident
      rcases List.mem_append.mp hident with hident | hident
      · rcases List.mem_append.mp hident with hident | hident
        · exact hcolp ident hident
        · exact hwcp ident hident
      · exact hop ident hident

/-- Witness for C3 amended: a request naming a column outside the snapshot
fails with the ValueError before any SQL exists, and for a concrete
successful grouped request every quoted identifier of its SQL is in the
snapshot. -/
theorem C3_amended_identifier_validation_witness :
    build_query "Grouped (summary)" (some "NOPE") none [] none none [] 50 ["MAKE"]
      = Except.error (PyErr.valueError "Invalid column name detected") ∧
    (∀ ident ∈ quotedIdents ("\n            SELECT \n                COALESCE(CAST(\"MAKE\" AS VARCHAR), '(null)') as \"MAKE\",\n                COUNT(*) as count \n            FROM mvr\n            \n            GROUP BY \"MAKE\"\n            ORDER BY count DESC\n            LIMIT 50\n        " : String).data,
      ident ∈ (["MAKE"] : List String)) := by
  constructor
  · exact (C3_amended_identifier_validation "Grouped (summary)" (some "NOPE") none []
      none none [] 50 ["MAKE"] (by decide)).1 (by decide)
  · exact (C3_amended_identifier_validation "Grouped (summary)" (some "MAKE") (some "*")
      [] none none [] 50 ["MAKE"] (by decide)).2 _ [] (by rfl) (fun _ => rfl)

theorem build_filter_condition_shape (col op : String) (v1 v2 : Option String)
    (p1 p2 : List Param) (hlen : p1.length = p2.length) (hs : sameShape op v1 v2) :
    ((build_filter_condition col op v1 p1).map fun r => (r.1, r.2.length))
      = ((build_filter_condition col op v2 p2).map fun r => (r.1, r.2.length)) := by
  obtain ⟨hio, hcmp⟩ := hs
  by_cases h1 : op = "is null"
  · subst h1; simp [build_filter_condition, Except.map, hlen]
  by_cases h2 : op = "not null"
  · subst h2; simp [build_filter_condition, Except.map, hlen]
  by_cases h3 : op = "contains"
  · subst h3; simp [build_filter_condition, Except.map, hlen]
  by_cases h4 : op = "equals"
  · subst h4; simp [build_filter_condition, Except.map, hlen]
  by_cases h5 : op = "is one of"
  · subst h5
    specialize hio rfl
    cases v1 with
    | none =>
      have hv2 : v2 = none := hio.1.mp rfl
      subst hv2
      simp [build_filter_condition, Except.map]
    | some s1 =>
      cases v2 with
      | none =>
        exact absurd (hio.1.mpr rfl) (by simp)
      | some s2 =>
        have hlen2 : (isOneOfValues s1).length = (isOneOfValues s2).length :=
          hio.2 s1 s2 rfl rfl
        rw [bfc_is_one_of_eq, bfc_is_one_of_eq]
        by_cases hnil : isOneOfValues s1 = []
        · have hnil2 : isOneOfValues s2 = [] := by
            rw [← List.length_eq_zero, ← hlen2, hnil]
            rfl
          rw [if_pos hnil, if_pos hnil2]
          simp [Except.map, hlen]
        · have hnil2 : ¬ isOneOfValues s2 = [] := by
            intro hx
            apply hnil
            rw [← List.length_eq_zero, hlen2, hx]
            rfl
          rw [if_neg hnil, if_neg hnil2, inParamsLoop_spec, inParamsLoop_spec]
          simp [Except.map, hlen, hlen2]
  by_cases h6 : op = ">" ∨ op = "<" ∨ op = ">=" ∨ op = "<="
  · specialize hcmp h6
    cases hnum : is_numeric v2 with
    | true =>
      have hnum1 : is_numeric v1 = true := hcmp.trans hnum
      simp [build_filter_condition, Except.map, h1, h2, h3, h4, h5, h6, hnum, hnum1, hlen]
    | false =>
      have hnum1 : is_numeric v1 = false := hcmp.trans hnum
      simp [build_filter_condition, Except.map, h1, h2, h3, h4, h5, h6, hnum, hnum1, hlen]
  · simp [build_filter_condition, Except.map, h1, h2, h3, h4, h5, h6, hlen]

theorem condLoop_shape :
    ∀ (fs1 fs2 : List (String × String × Option String)),
      List.Forall₂ (fun f g => f.1 = g.1 ∧ f.2.1 = g.2.1 ∧ sameShape f.2.1 f.2.2 g.2.2)
        fs1 fs2 →
      ∀ (conds : List String) (p1 p2 : List Param), p1.length = p2.length →
      ((condLoop fs1 conds p1).map fun r => (r.1, r.2.length))
        = ((condLoop fs2 conds p2).map fun r => (r.1, r.2.length))
  | _, _, List.Forall₂.nil, conds, p1, p2, hlen => by
    simp [condLoop, Except.map, hlen]
  | _, _, List.Forall₂.cons hfg hrest, conds, p1, p2, hlen => by
    rename_i f g fs1 fs2
    obtain ⟨c1, o1, w1⟩ := f
    obtain ⟨c2, o2, w2⟩ := g
    obtain ⟨hcol, hop, hshape⟩ := hfg
    simp only at hcol hop hshape
    subst hcol
    subst hop
    have hsh := build_filter_condition_shape c1 o1 w1 w2 p1 p2 hlen hshape
    rw [show condLoop ((c1, o1, w1) :: fs1) conds p1
        = (match build_filter_condition c1 o1 w1 p1 with
           | Except.error e => Except.error e
           | Except.ok (condition, params') =>
             match condition with
             | some c =>
               if c = "" then condLoop fs1 conds params'
               else condLoop fs1 (conds ++ [c]) params'
             | none => condLoop fs1 conds params') from rfl,
      show condLoop ((c1, o1, w2) :: fs2) conds p2
        = (match build_filter_condition c1 o1 w2 p2 with
           | Except.error e => Except.error e
           | Except.ok (condition, params') =>
             match condition with
             | some c =>
               if c = "" then condLoop fs2 conds params'
               else condLoop fs2 (conds ++ [c]) params'
             | none => condLoop fs2 conds params') from rfl]
    cases hb1 : build_filter_condition c1 o1 w1 p1 with
    | error e1 =>
      cases hb2 : build_filter_condition c1 o1 w2 p2 with
      | error e2 =>
        rw [hb1, hb2] at hsh
        simp only [Except.map, Except.error.injEq] at hsh
        rw [hsh]
      | ok r2 =>
        rw [hb1, hb2] at hsh
        simp [Except.map] at hsh
    | ok r1 =>
      cases hb2 : build_filter_condition c1 o1 w2 p2 with
      | error e2 =>
        rw [hb1, hb2] at hsh
        simp [Except.map] at hsh
      | ok r2 =>
        obtain ⟨copt1, q1⟩ := r1
        obtain ⟨copt2, q2⟩ := r2
        rw [hb1, hb2] at hsh
        simp only [Except.map, Except.ok.injEq, Prod.mk.injEq] at hsh
        obtain ⟨hco, hql⟩ := hsh
        subst hco
        cases copt1 with
        | none =>
          exact condLoop_shape fs1 fs2 hrest conds q1 q2 hql
        | some c =>
          show ((if c = "" then condLoop fs1 conds q1
              else condLoop fs1 (conds ++ [c]) q1).map fun r => (r.1, r.2.length))
            = ((if c = "" then condLoop fs2 conds q2
              else condLoop fs2 (conds ++ [c]) q2).map fun r => (r.1, r.2.length))
          by_cases hce : c = ""
          · rw [if_pos hce, if_pos hce]
            exact condLoop_shape fs1 fs2 hrest conds q1 q2 hql
          · rw [if_neg hce, if_neg hce]
            exact condLoop_shape fs1 fs2 hrest (conds ++ [c]) q1 q2 hql

/-- C1 amended: filter values never reach the SQL text.  The generated SQL
is invariant under replacing every filter value by any other value of the
same shape (same presence and numeric-parse status for the comparison
operators, same presence and parsed-segment count for "is one of"): the
text depends on the values only through those shapes, so a value's
characters are never concatenated into the SQL — they occur only in the
parameter list.  (The literal "metacharacter not a substring" reading of
the claim fails only because the fixed template itself contains quote
characters, see the counterexample.) -/
theorem C1_amended_value_noninterference (qm : String) (gb cc : Option String)
    (sc : List String) (sortc sord : Option String)
    (fs1 fs2 : List (String × String × Option String)) (lim : Int) (avail : List String)
    (hfs : List.Forall₂ (fun f g => f.1 = g.1 ∧ f.2.1 = g.2.1 ∧ sameShape f.2.1 f.2.2 g.2.2)
      fs1 fs2) :
    ((build_query qm gb cc sc sortc sord fs1 lim avail).map fun r => r.1)
      = ((build_query qm gb cc sc sortc sord fs2 lim avail).map fun r => r.1) := by
  have hmap : fs1.map (fun f => f.1) = fs2.map (fun f => f.1) := by
    induction hfs with
    | nil => rfl
    | cons hfg hrest ih => simp [List.map_cons, hfg.1, ih]
  rw [build_query_eq, build_query_eq,
    show bqColumnsToValidate gb cc sc sortc fs1 = bqColumnsToValidate gb cc sc sortc fs2
      from by simp [bqColumnsToValidate, hmap]]
  by_cases hv : validate_columns (bqColumnsToValidate gb cc sc sortc fs2) avail = true
  · rw [if_pos hv, if_pos hv]
    have hcs := condLoop_shape fs1 fs2 hfs [] [] [] rfl
    cases e1 : condLoop fs1 [] [] with
    | error er1 =>
      cases e2 : condLoop fs2 [] [] with
      | error er2 =>
        rw [e1, e2] at hcs
        simp only [Except.map, Except.error.injEq] at hcs
        rw [hcs]
      | ok cp2 =>
        rw [e1, e2] at hcs
        simp [Except.map] at hcs
    | ok cp1 =>
      cases e2 : condLoop fs2 [] [] with
      | error er2 =>
        rw [e1, e2] at hcs
        simp [Except.map] at hcs
      | ok cp2 =>
        obtain ⟨conds1, ps1⟩ := cp1
        obtain ⟨conds2, ps2⟩ := cp2
        rw [e1, e2] at hcs
        simp only [Except.map, Except.ok.injEq, Prod.mk.injEq] at hcs
        obtain ⟨hcond, -⟩ := hcs
        subst hcond
        by_cases hqm : qm = "Grouped (summary)"
        · simp [hqm, Except.map]
        · by_cases hsc : sc = [] <;> simp [hqm, hsc, Except.map]
  · rw [if_neg hv, if_neg hv]

/-- Witness for C1 amended at a concrete input: replacing an injection
payload by a harmless same-shape value leaves the generated SQL text
unchanged. -/
theorem C1_amended_value_noninterference_witness :
    ((build_query "Raw (individual records)" none none ["MAKE"] none none
        [("MAKE", "equals", some "'; DROP TABLE mvr; --")] 100 ["MAKE"]).map fun r => r.1)
      = ((build_query "Raw (individual records)" none none ["MAKE"] none none
        [("MAKE", "equals", some "SAFE")] 100 ["MAKE"]).map fun r => r.1) :=
  C1_amended_value_noninterference "Raw (individual records)" none none ["MAKE"] none none
    _ _ 100 ["MAKE"]
    (List.Forall₂.cons
      ⟨rfl, rfl, fun h => absurd h (by decide), fun h => absurd h (by decide)⟩
      List.Forall₂.nil)
